import Mathlib

/-!
MathCompile: the LibraryLink argument marshaling layer.

A shallow embedding of `src/librarylink.h` (namespace `wl::librarylink`):
the result type identifier `get_return_type_id`, the numeric array tag table
`get_numeric_array_type`, the array reader and writer `get_array` and
`set_array`, and the entry points `get`, `set` and `set_expr`, followed by the
properties proved about them.

Conventions of the embedding.

* C++ types that occur as template arguments are values of `ElemType` (the
  thirteen element types `get_numeric_array_type` is instantiable at) and
  `CType` (every type `get_return_type_id` can be asked about).
* `mint` is the 64-bit signed host integer; arithmetic on it is done in `Int`
  and reduced with `mint_wrap`.
* Buffers are lists of bytes; `std::memcpy` is a byte copy that is only defined
  when both ranges are long enough.
* The host (the function table `lib_data`) is a heap of array objects addressed
  by handles, together with the error code its next creation call will return.
* A call returns an `Outcome` (a value, a thrown error code, or undefined
  behaviour) together with the world it leaves behind; the world carries a
  ghost trace of Compiled Array allocations and bulk copies.
-/

namespace wl

/-! ## Types -/

/-- Modelled from the spec: the element types of `traits.h` that the layer
supports (boolean, 8/16/32/64-bit signed and unsigned integers, 32/64-bit
floats, 32/64-bit complex); exactly the types for which the `if constexpr`
ladder of `get_numeric_array_type` does not reach its `static_assert`. -/
inductive ElemType
  | boolean
  | int8_t
  | uint8_t
  | int16_t
  | uint16_t
  | int32_t
  | uint32_t
  | int64_t
  | uint64_t
  | float
  | double
  | complex_float
  | complex_double
  deriving DecidableEq, Repr

/-- Modelled from the spec: the C++ types a `ReturnType` template argument can
be. `void_type` is the struct of `types.h`; `elem` embeds the supported element
types; `string` is `std::string`; `other` stands for any further type
(`all_type`, `varg_tag`, ...); `ndarray V R` is `wl::ndarray<V, R>`. -/
inductive CType
  | void_type
  | elem (t : ElemType)
  | string
  | other (n : Nat)
  | ndarray (V : CType) (R : Nat)
  deriving DecidableEq, Repr

/-- Modelled from the spec: the trait `wl::is_array_v` of `traits.h`. -/
def is_array_v : CType → Bool
  | .ndarray _ _ => true
  | _ => false

/-- Modelled from the spec: the trait `wl::value_type_t` of `traits.h`: the
element type of an array type (and the type itself otherwise). -/
def value_type_t : CType → CType
  | .ndarray V _ => V
  | t => t

/-- Modelled from the spec: the trait `wl::array_rank_v` of `traits.h`: the rank
of an array type, 0 for scalars. -/
def array_rank_v : CType → Nat
  | .ndarray _ R => R
  | _ => 0

/-- The host integer `mint` is a 64-bit signed integer: the value in
`[-2^63, 2^63)` congruent to `x` modulo `2^64`. -/
def mint_wrap (x : Int) : Int := (x + 2 ^ 63) % 2 ^ 64 - 2 ^ 63

namespace librarylink

/-! ## `get_return_type_id` -/

/-- The enumerator `MathLink = 1` of the local `enum : mint`. -/
def get_return_type_id.MathLink : Int := 1
/-- The enumerator `Null`. -/
def get_return_type_id.Null : Int := 2
/-- The enumerator `Bool`. -/
def get_return_type_id.Bool : Int := 3
/-- The enumerator `I8`. -/
def get_return_type_id.I8 : Int := 4
/-- The enumerator `U8`. -/
def get_return_type_id.U8 : Int := 5
/-- The enumerator `I16`. -/
def get_return_type_id.I16 : Int := 6
/-- The enumerator `U16`. -/
def get_return_type_id.U16 : Int := 7
/-- The enumerator `I32`. -/
def get_return_type_id.I32 : Int := 8
/-- The enumerator `U32`. -/
def get_return_type_id.U32 : Int := 9
/-- The enumerator `I64`. -/
def get_return_type_id.I64 : Int := 10
/-- The enumerator `U64`. -/
def get_return_type_id.U64 : Int := 11
/-- The enumerator `R32`. -/
def get_return_type_id.R32 : Int := 12
/-- The enumerator `R64`. -/
def get_return_type_id.R64 : Int := 13
/-- The enumerator `C32`. -/
def get_return_type_id.C32 : Int := 14
/-- The enumerator `C64`. -/
def get_return_type_id.C64 : Int := 15

/-- The constant `max_type_count`. -/
def get_return_type_id.max_type_count : Int := 256

/-- The `std::is_same_v` ladder of `get_return_type_id`, applied to the type
`V`. -/
def get_return_type_id.type (V : CType) : Int :=
  if V = CType.void_type then get_return_type_id.Null
  else if V = CType.elem ElemType.boolean then get_return_type_id.Bool
  else if V = CType.elem ElemType.int8_t then get_return_type_id.I8
  else if V = CType.elem ElemType.uint8_t then get_return_type_id.U8
  else if V = CType.elem ElemType.int16_t then get_return_type_id.I16
  else if V = CType.elem ElemType.uint16_t then get_return_type_id.U16
  else if V = CType.elem ElemType.int32_t then get_return_type_id.I32
  else if V = CType.elem ElemType.uint32_t then get_return_type_id.U32
  else if V = CType.elem ElemType.int64_t then get_return_type_id.I64
  else if V = CType.elem ElemType.uint64_t then get_return_type_id.U64
  else if V = CType.elem ElemType.float then get_return_type_id.R32
  else if V = CType.elem ElemType.double then get_return_type_id.R64
  else if V = CType.elem ElemType.complex_float then get_return_type_id.C32
  else if V = CType.elem ElemType.complex_double then get_return_type_id.C64
  else get_return_type_id.MathLink

/-- The function template `get_return_type_id<ReturnType>()`. The rank is
converted to `mint`, and the product and the sum are `mint` operations. -/
def get_return_type_id (ReturnType : CType) : Int :=
  let V := if is_array_v ReturnType then value_type_t ReturnType else ReturnType
  let rank := mint_wrap (array_rank_v ReturnType)
  let type := get_return_type_id.type V
  mint_wrap (mint_wrap (rank * get_return_type_id.max_type_count) + type)

/-- The type code table as the specification words it: native-call-only for
everything that is not void, boolean or numeric. -/
def code : CType → Int
  | .void_type => 2
  | .elem .boolean => 3
  | .elem .int8_t => 4
  | .elem .uint8_t => 5
  | .elem .int16_t => 6
  | .elem .uint16_t => 7
  | .elem .int32_t => 8
  | .elem .uint32_t => 9
  | .elem .int64_t => 10
  | .elem .uint64_t => 11
  | .elem .float => 12
  | .elem .double => 13
  | .elem .complex_float => 14
  | .elem .complex_double => 15
  | _ => 1

/-! ## The host interface (`WolframLibrary.h`, `WolframNumericArrayLibrary.h`) -/

/-- Modelled from the spec: the fine-grained type tag of the numeric array
interface (the enumeration `numericarray_data_t` of the host header
`WolframNumericArrayLibrary.h`), with the "undefined type" sentinel. -/
inductive numericarray_data_t
  | MNumericArray_Type_Undef
  | MNumericArray_Type_Bit8
  | MNumericArray_Type_UBit8
  | MNumericArray_Type_Bit16
  | MNumericArray_Type_UBit16
  | MNumericArray_Type_Bit32
  | MNumericArray_Type_UBit32
  | MNumericArray_Type_Bit64
  | MNumericArray_Type_UBit64
  | MNumericArray_Type_Real32
  | MNumericArray_Type_Real64
  | MNumericArray_Type_Complex_Real32
  | MNumericArray_Type_Complex_Real64
  deriving DecidableEq, Repr

open numericarray_data_t

/-- Modelled from the spec: the host error code for `TypeMismatch`. -/
def LIBRARY_TYPE_ERROR : Int := 1
/-- Modelled from the spec: the host error code for `RankMismatch`. -/
def LIBRARY_RANK_ERROR : Int := 2

/-- Modelled from the spec: the legacy tensor element kind "integer". -/
def MType_Integer : Int := 2
/-- Modelled from the spec: the legacy tensor element kind "real". -/
def MType_Real : Int := 3
/-- Modelled from the spec: the legacy tensor element kind "complex". -/
def MType_Complex : Int := 4

/-- A byte of a buffer. -/
abbrev Byte := Fin 256

/-- Modelled from the spec: the element width in bytes of a legacy tensor of the
given kind (64-bit integer, 64-bit float, 64-bit complex). -/
def MTensor_width (type : Int) : Nat :=
  if type = MType_Complex then 16 else 8

/-- Modelled from the spec: the element width in bytes that a numeric array
type tag determines. -/
def MNumericArray_width : numericarray_data_t → Nat
  | MNumericArray_Type_Undef => 0
  | MNumericArray_Type_Bit8 => 1
  | MNumericArray_Type_UBit8 => 1
  | MNumericArray_Type_Bit16 => 2
  | MNumericArray_Type_UBit16 => 2
  | MNumericArray_Type_Bit32 => 4
  | MNumericArray_Type_UBit32 => 4
  | MNumericArray_Type_Bit64 => 8
  | MNumericArray_Type_UBit64 => 8
  | MNumericArray_Type_Real32 => 4
  | MNumericArray_Type_Real64 => 8
  | MNumericArray_Type_Complex_Real32 => 8
  | MNumericArray_Type_Complex_Real64 => 16

/-- Modelled from the spec: a host array object. A legacy tensor declares an
element kind, a rank, its extents and owns a contiguous buffer; a numeric array
declares a type tag instead of a kind. The two encodings are mutually
exclusive. -/
inductive MDataArray
  | tensor (type : Int) (rank : Nat) (dims : List Nat) (data : List Byte)
  | numeric (type : numericarray_data_t) (rank : Nat) (dims : List Nat) (data : List Byte)
  deriving DecidableEq, Repr

/-- The declared rank of a host array object. -/
def MDataArray.rank : MDataArray → Nat
  | .tensor _ r _ _ => r
  | .numeric _ r _ _ => r

/-- The declared extents of a host array object. -/
def MDataArray.dims : MDataArray → List Nat
  | .tensor _ _ d _ => d
  | .numeric _ _ d _ => d

/-- The buffer of a host array object. -/
def MDataArray.data : MDataArray → List Byte
  | .tensor _ _ _ b => b
  | .numeric _ _ _ b => b

/-- Modelled from the spec: an argument slot (`MArgument`, a union in the host
header). `MTensor` and `MNumericArray` are handles: indices into the host heap;
the array members `tensor` and `numeric` of the union are one storage holding
one handle type, so both array accessors read a handle written through either,
and what kind of array the slot holds is decided by the host object behind the
handle. A host real (`mreal`, a binary64) is carried as its bit pattern. -/
inductive MArgument
  | unset
  | boolean (v : Int)
  | integer (v : Int)
  | tensor (h : Nat)
  | numeric (h : Nat)
  | real (x : Nat)
  | cmplex (re im : Nat)
  deriving DecidableEq, Repr

/-- Modelled from the spec: `MArgument_getMTensor`. The array members of the
union share their storage and the two handle types coincide (which is what lets
`set_array` pass a numeric array to `MArgument_setMTensor`), so an array handle
is read back whichever array member it was written through. Reading a slot
that holds no array handle is outside the host contract. -/
def MArgument_getMTensor : MArgument → Option Nat
  | .tensor h => some h
  | .numeric h => some h
  | _ => none

/-- Modelled from the spec: `MArgument_getMNumericArray`; see
`MArgument_getMTensor`. -/
def MArgument_getMNumericArray : MArgument → Option Nat
  | .tensor h => some h
  | .numeric h => some h
  | _ => none

/-- Modelled from the spec: `MArgument_setMTensor`: the slot now holds the
handle, written through its tensor member. -/
def MArgument_setMTensor (_res : MArgument) (v : Nat) : MArgument := MArgument.tensor v

/-- Modelled from the spec: what a call did besides computing its result. The
first two events are ghost records of a Compiled Array allocation and of a bulk
copy; the `link_` events are the calls made on the external expression-protocol
writer `mathlink::link_t` of `math_compile.h`: `put(name, argc)`, `put(name)`,
`put(string)`, `put_array(dims, data)` and `eof()`. -/
inductive Event
  | ndarray_ctor (T : ElemType) (dims : List Nat)
  | memcpy (n : Nat)
  | link_put_function (name : String) (argc : Nat)
  | link_put_symbol (name : String)
  | link_put_string (s : String)
  | link_put_array (dims : List Nat) (data : List String)
  | link_eof
  deriving DecidableEq, Repr

/-- Modelled from the spec: the state outside the call. `heap` holds the host
array objects (a handle is an index into it), `new_error` is the error code the
host returns from its next creation call (zero: the creation succeeds), and
`trace` is the ghost record of Compiled Array allocations, bulk copies and
calls on the expression-protocol link. -/
structure World where
  heap : List MDataArray
  new_error : Int
  trace : List Event
  deriving DecidableEq, Repr

/-- The result of a call: a value, a thrown library error code, or a step
outside the contract of the host interface or of `std::memcpy` (undefined
behaviour). -/
inductive Outcome (α : Type)
  | ok (a : α)
  | throw (e : Int)
  | undefined
  deriving DecidableEq, Repr

/-- Modelled from the spec: the legacy tensor accessors (`MTensor_getType`,
`MTensor_getRank`, `MTensor_getDimensions`, `MTensor_get...Data`) are defined on
handles of live legacy tensors only. -/
def MTensor_get (w : World) (tensor : Nat) : Option (Int × Nat × List Nat × List Byte) :=
  match w.heap[tensor]? with
  | some (MDataArray.tensor type rank dims data) => some (type, rank, dims, data)
  | _ => none

/-- Modelled from the spec: the numeric array accessors
(`MNumericArray_getType`, `MNumericArray_getRank`,
`MNumericArray_getDimensions`, `MNumericArray_getData`) are defined on handles
of live numeric arrays only. -/
def MNumericArray_get (w : World) (narray : Nat) :
    Option (numericarray_data_t × Nat × List Nat × List Byte) :=
  match w.heap[narray]? with
  | some (MDataArray.numeric type rank dims data) => some (type, rank, dims, data)
  | _ => none

/-- Modelled from the spec: `utils::size_of_dims` of `math_compile.h`: the total
element count, the product of the extents. -/
def utils.size_of_dims (dims : List Nat) : Nat := dims.prod

/-- Modelled from the spec: `MTensor_new(type, rank, dims, &tensor)`. The host
either returns its error code and creates nothing, or appends a tensor of the
given kind, rank and extents (the first `rank` entries of `dims`) with a buffer
of matching size, and returns its handle with code zero. -/
def MTensor_new (type : Int) (rank : Nat) (dims : List Nat) (w : World) : Int × Nat × World :=
  if w.new_error ≠ 0 then (w.new_error, 0, w)
  else
    let d := dims.take rank
    let buffer : List Byte := List.replicate (utils.size_of_dims d * MTensor_width type) 0
    (0, w.heap.length, { w with heap := w.heap ++ [MDataArray.tensor type rank d buffer] })

/-- Modelled from the spec: `MNumericArray_new(type, rank, dims, &narray)`; as
`MTensor_new`, for a numeric array of the given type tag. -/
def MNumericArray_new (type : numericarray_data_t) (rank : Nat) (dims : List Nat) (w : World) :
    Int × Nat × World :=
  if w.new_error ≠ 0 then (w.new_error, 0, w)
  else
    let d := dims.take rank
    let buffer : List Byte := List.replicate (utils.size_of_dims d * MNumericArray_width type) 0
    (0, w.heap.length, { w with heap := w.heap ++ [MDataArray.numeric type rank d buffer] })

/-- The host buffer behind a data pointer is overwritten. -/
def MDataArray.with_data : MDataArray → List Byte → MDataArray
  | .tensor t r d _, b => .tensor t r d b
  | .numeric t r d _, b => .numeric t r d b

/-- `std::memcpy(dst, src, n)`: the first `n` bytes of `dst` become the first
`n` bytes of `src`; undefined unless both ranges hold `n` bytes. -/
def memcpy (dst src : List Byte) (n : Nat) : Option (List Byte) :=
  if n ≤ src.length ∧ n ≤ dst.length then some (src.take n ++ dst.drop n) else none

/-! ## Compiled arrays -/

/-- Modelled from the spec: `sizeof(T)` for the supported element types. -/
def sizeof : ElemType → Nat
  | .boolean => 1
  | .int8_t => 1
  | .uint8_t => 1
  | .int16_t => 2
  | .uint16_t => 2
  | .int32_t => 4
  | .uint32_t => 4
  | .int64_t => 8
  | .uint64_t => 8
  | .float => 4
  | .double => 8
  | .complex_float => 8
  | .complex_double => 16

/-- Modelled from the spec: the Compiled Array `wl::ndarray<T, R>` of
`math_compile.h`: an owned contiguous buffer with an explicit shape. -/
structure ndarray (T : ElemType) (R : Nat) where
  dims : List Nat
  data : List Byte
  deriving DecidableEq, Repr

/-- Modelled from the spec: `ndarray::size()`, the total element count. -/
def ndarray.size {T : ElemType} {R : Nat} (a : ndarray T R) : Nat := utils.size_of_dims a.dims

/-- Modelled from the spec: the invariant of a Compiled Array: the shape has
exactly `R` extents and the buffer holds `size() * sizeof(T)` bytes. -/
def ndarray.wf {T : ElemType} {R : Nat} (a : ndarray T R) : Prop :=
  a.dims.length = R ∧ a.data.length = a.size * sizeof T

instance {T : ElemType} {R : Nat} (a : ndarray T R) : Decidable a.wf :=
  inferInstanceAs (Decidable (a.dims.length = R ∧ a.data.length = a.size * sizeof T))

/-- Modelled from the spec: the constructor `ndarray<T, R>(dims)`: a freshly
allocated array of the given shape. -/
def ndarray.ctor (T : ElemType) (R : Nat) (dims : List Nat) : ndarray T R :=
  { dims := dims, data := List.replicate (utils.size_of_dims dims * sizeof T) 0 }

/-! ## `get_numeric_array_type` -/

/-- The function template `get_numeric_array_type<T>()`: the `if constexpr`
ladder, whose final `static_assert` no supported element type reaches. -/
def get_numeric_array_type (T : ElemType) : numericarray_data_t :=
  if T = ElemType.int8_t then MNumericArray_Type_Bit8
  else if T = ElemType.uint8_t then MNumericArray_Type_UBit8
  else if T = ElemType.int16_t then MNumericArray_Type_Bit16
  else if T = ElemType.uint16_t then MNumericArray_Type_UBit16
  else if T = ElemType.int32_t then MNumericArray_Type_Bit32
  else if T = ElemType.uint32_t then MNumericArray_Type_UBit32
  else if T = ElemType.int64_t then MNumericArray_Type_Bit64
  else if T = ElemType.uint64_t then MNumericArray_Type_UBit64
  else if T = ElemType.boolean then MNumericArray_Type_Bit8
  else if T = ElemType.float then MNumericArray_Type_Real32
  else if T = ElemType.double then MNumericArray_Type_Real64
  else if T = ElemType.complex_float then MNumericArray_Type_Complex_Real32
  else MNumericArray_Type_Complex_Real64

/-! ## `get_array` -/

/-- The `switch (type)` at the head of `get_array`: the value `pass_by_tensor`
has after it, or the thrown `LIBRARY_TYPE_ERROR`. -/
def get_array.pass_by_tensor (type : numericarray_data_t) : Outcome Bool :=
  match type with
  | MNumericArray_Type_Bit64 => Outcome.ok true
  | MNumericArray_Type_Real64 => Outcome.ok true
  | MNumericArray_Type_Complex_Real64 => Outcome.ok true
  | MNumericArray_Type_Undef => Outcome.throw LIBRARY_TYPE_ERROR
  | _ => Outcome.ok false

/-- The three statements that end every branch of `get_array`:
`ndarray<T, R> ret(dims); std::memcpy(ret.data(), ptr, ret.size() * sizeof(T));
return ret;`. -/
def get_array.copy (T : ElemType) (R : Nat) (dims : List Nat) (ptr : List Byte) (w : World) :
    Outcome (ndarray T R) × World :=
  let ret := ndarray.ctor T R dims
  let w1 := { w with trace := w.trace ++ [Event.ndarray_ctor T dims] }
  match memcpy ret.data ptr (ret.size * sizeof T) with
  | none => (Outcome.undefined, w1)
  | some bytes =>
    (Outcome.ok { ret with data := bytes },
      { w1 with trace := w1.trace ++ [Event.memcpy (ret.size * sizeof T)] })

/-- The branch `if (pass_by_tensor)` of `get_array`. The host reports rank and
extents as non-negative `mint` values, which `size_t(...)` and `std::copy_n`
leave unchanged; `std::copy_n(input_dims, R, ...)` reads `R` extents, and is
undefined when the host array has fewer. The local `size` is not used by the
source and is left out. -/
def get_array.by_tensor (T : ElemType) (R : Nat) (type : numericarray_data_t)
    (arg : MArgument) (w : World) : Outcome (ndarray T R) × World :=
  match MArgument_getMTensor arg with
  | none => (Outcome.undefined, w)
  | some tensor =>
    match MTensor_get w tensor with
    | none => (Outcome.undefined, w)
    | some (input_type, input_rank, input_dims, ptr) =>
      if input_rank ≠ R then (Outcome.throw LIBRARY_RANK_ERROR, w)
      else if input_dims.length < R then (Outcome.undefined, w)
      else
        let dims := input_dims.take R
        if type = MNumericArray_Type_Bit64 then
          if input_type ≠ MType_Integer then (Outcome.throw LIBRARY_TYPE_ERROR, w)
          else get_array.copy T R dims ptr w
        else if type = MNumericArray_Type_Real64 then
          if input_type ≠ MType_Real then (Outcome.throw LIBRARY_TYPE_ERROR, w)
          else get_array.copy T R dims ptr w
        else
          if input_type ≠ MType_Complex then (Outcome.throw LIBRARY_TYPE_ERROR, w)
          else get_array.copy T R dims ptr w

/-- The branch `else // pass by numeric array` of `get_array`: the type tag is
compared first, the rank second. -/
def get_array.by_numeric_array (T : ElemType) (R : Nat) (type : numericarray_data_t)
    (arg : MArgument) (w : World) : Outcome (ndarray T R) × World :=
  match MArgument_getMNumericArray arg with
  | none => (Outcome.undefined, w)
  | some narray =>
    match MNumericArray_get w narray with
    | none => (Outcome.undefined, w)
    | some (input_type, input_rank, input_dims, ptr) =>
      if input_type ≠ type then (Outcome.throw LIBRARY_TYPE_ERROR, w)
      else if input_rank ≠ R then (Outcome.throw LIBRARY_RANK_ERROR, w)
      else if input_dims.length < R then (Outcome.undefined, w)
      else
        let dims := input_dims.take R
        get_array.copy T R dims ptr w

/-- The function template `get_array<T, R>(arg)`. -/
def get_array (T : ElemType) (R : Nat) (arg : MArgument) (w : World) :
    Outcome (ndarray T R) × World :=
  let type := get_numeric_array_type T
  match get_array.pass_by_tensor type with
  | Outcome.ok true => get_array.by_tensor T R type arg w
  | Outcome.ok false => get_array.by_numeric_array T R type arg w
  | Outcome.throw e => (Outcome.throw e, w)
  | Outcome.undefined => (Outcome.undefined, w)

/-! ## `set_array` -/

/-- The `switch (type)` at the head of `set_array`. -/
def set_array.pass_by_tensor (type : numericarray_data_t) : Outcome Bool :=
  match type with
  | MNumericArray_Type_Bit64 => Outcome.ok true
  | MNumericArray_Type_Real64 => Outcome.ok true
  | MNumericArray_Type_Complex_Real64 => Outcome.ok true
  | MNumericArray_Type_Undef => Outcome.throw LIBRARY_TYPE_ERROR
  | _ => Outcome.ok false

/-- The statement `std::memcpy(ptr, val.data(), val.size() * sizeof(T))` of
`set_array`, where `ptr` is the data pointer of the host object `handle`. -/
def set_array.copy {T : ElemType} {R : Nat} (handle : Nat) (val : ndarray T R) (w : World) :
    Option World :=
  match w.heap[handle]? with
  | none => none
  | some obj =>
    match memcpy obj.data val.data (val.size * sizeof T) with
    | none => none
    | some bytes =>
      some { w with heap := w.heap.set handle (obj.with_data bytes),
                    trace := w.trace ++ [Event.memcpy (val.size * sizeof T)] }

/-- One arm of the branch `if (pass_by_tensor)` of `set_array`, for the tensor
kind `kind`: `MTensor_new`, the error check, the bulk copy; then the statement
`MArgument_setMTensor(res, tensor)` that follows the three arms. -/
def set_array.by_tensor {T : ElemType} {R : Nat} (kind : Int) (output_dims : List Nat)
    (res : MArgument) (val : ndarray T R) (w : World) : Outcome Unit × MArgument × World :=
  match MTensor_new kind R output_dims w with
  | (error, tensor, w1) =>
    if error ≠ 0 then (Outcome.throw error, res, w1)
    else
      match set_array.copy tensor val w1 with
      | none => (Outcome.undefined, res, w1)
      | some w2 => (Outcome.ok (), MArgument_setMTensor res tensor, w2)

/-- The branch `else` of `set_array`: `MNumericArray_new`, the error check, the
bulk copy, and `MArgument_setMTensor(res, narray)`. -/
def set_array.by_numeric_array {T : ElemType} {R : Nat} (type : numericarray_data_t)
    (output_dims : List Nat) (res : MArgument) (val : ndarray T R) (w : World) :
    Outcome Unit × MArgument × World :=
  match MNumericArray_new type R output_dims w with
  | (error, narray, w1) =>
    if error ≠ 0 then (Outcome.throw error, res, w1)
    else
      match set_array.copy narray val w1 with
      | none => (Outcome.undefined, res, w1)
      | some w2 => (Outcome.ok (), MArgument_setMTensor res narray, w2)

/-- The function template `set_array<T, R>(res, val)`: the outcome, the result
slot `res` after the call, and the world after the call. -/
def set_array (T : ElemType) (R : Nat) (res : MArgument) (val : ndarray T R) (w : World) :
    Outcome Unit × MArgument × World :=
  let type := get_numeric_array_type T
  match set_array.pass_by_tensor type with
  | Outcome.throw e => (Outcome.throw e, res, w)
  | Outcome.undefined => (Outcome.undefined, res, w)
  | Outcome.ok pass_by_tensor =>
    let output_dims := val.dims.take R
    if pass_by_tensor then
      if type = MNumericArray_Type_Bit64 then
        set_array.by_tensor MType_Integer output_dims res val w
      else if type = MNumericArray_Type_Real64 then
        set_array.by_tensor MType_Real output_dims res val w
      else
        set_array.by_tensor MType_Complex output_dims res val w
    else
      set_array.by_numeric_array type output_dims res val w

/-! ## Vocabulary of the specification -/

/-- The two host array encodings of the specification. -/
inductive Encoding
  | LegacyTensor
  | NumericArray
  deriving DecidableEq, Repr

/-- The specification's rule for the Array Encoding Selector: legacy tensor
exactly for the 64-bit signed integer, the 64-bit float and the 64-bit
complex. -/
def Encoding.of (T : ElemType) : Encoding :=
  if T = ElemType.int64_t ∨ T = ElemType.double ∨ T = ElemType.complex_double then
    Encoding.LegacyTensor
  else Encoding.NumericArray

/-- The host object behind the array handle a slot holds, if any. -/
def MArgument.object (arg : MArgument) (w : World) : Option MDataArray :=
  match arg with
  | .tensor h => w.heap[h]?
  | .numeric h => w.heap[h]?
  | _ => none

/-- The legacy tensor element kind the specification expects for an element
type: integer for the 64-bit integer, real for the 64-bit float, complex for the
64-bit complex. -/
def MType_of (T : ElemType) : Int :=
  if T = ElemType.int64_t then MType_Integer
  else if T = ElemType.double then MType_Real
  else MType_Complex

/-- The encoding of a host array object. -/
def MDataArray.encoding : MDataArray → Encoding
  | .tensor _ _ _ _ => Encoding.LegacyTensor
  | .numeric _ _ _ _ => Encoding.NumericArray

/-- A host array object is what `get_array<T, R>` validates against, rank
aside: a legacy tensor when the encoding of `T` is the legacy tensor, and a
numeric array declaring the type tag of `T` otherwise. -/
def MDataArray.expected_for (T : ElemType) : MDataArray → Prop
  | .tensor _ _ _ _ => Encoding.of T = Encoding.LegacyTensor
  | .numeric type _ _ _ =>
    Encoding.of T = Encoding.NumericArray ∧ type = get_numeric_array_type T

instance (T : ElemType) : (obj : MDataArray) → Decidable (obj.expected_for T)
  | .tensor _ _ _ _ => inferInstanceAs (Decidable (Encoding.of T = Encoding.LegacyTensor))
  | .numeric type _ _ _ =>
    inferInstanceAs
      (Decidable (Encoding.of T = Encoding.NumericArray ∧ type = get_numeric_array_type T))

/-- The types that have a type code of their own in `get_return_type_id`:
`void_type` and the supported element types. -/
def enumerated : CType → Bool
  | .void_type => true
  | .elem _ => true
  | _ => false

/-! ## Concrete scenarios -/

/-- The six doubles 1.0, 2.0, 3.0, 4.0, 5.0, 6.0 as IEEE 754 binary64 values in
little-endian byte order. -/
def scenario.doubles_1_to_6 : List Byte :=
  [0, 0, 0, 0, 0, 0, 0xF0, 0x3F,
   0, 0, 0, 0, 0, 0, 0x00, 0x40,
   0, 0, 0, 0, 0, 0, 0x08, 0x40,
   0, 0, 0, 0, 0, 0, 0x10, 0x40,
   0, 0, 0, 0, 0, 0, 0x14, 0x40,
   0, 0, 0, 0, 0, 0, 0x18, 0x40]

/-- The four 16-bit unsigned integers 1, 2, 3, 4 in little-endian byte order. -/
def scenario.uint16_1_to_4 : List Byte := [1, 0, 2, 0, 3, 0, 4, 0]

/-- Three complex doubles, 1 + 2i, 3 + 4i and 5 + 6i, as six binary64 values. -/
def scenario.complex_3 : List Byte := scenario.doubles_1_to_6

/-- A host with no array objects whose creation calls succeed. -/
def scenario.empty_world : World := { heap := [], new_error := 0, trace := [] }

/-- A host holding one array object. -/
def scenario.world_with (obj : MDataArray) : World :=
  { heap := [obj], new_error := 0, trace := [] }

/-- Scenario A: the rank-2 array of doubles of shape [2, 3] holding 1.0 to 6.0
in row-major order. -/
def scenario.A : ndarray ElemType.double 2 :=
  { dims := [2, 3], data := scenario.doubles_1_to_6 }

/-- Scenario B: the rank-1 array of 16-bit unsigned integers 1, 2, 3, 4. -/
def scenario.B : ndarray ElemType.uint16_t 1 :=
  { dims := [4], data := scenario.uint16_1_to_4 }

/-- Scenario C: a numeric array handle declaring the complex-64 type, rank 1,
extent [3]. -/
def scenario.C : MDataArray :=
  MDataArray.numeric MNumericArray_Type_Complex_Real64 1 [3] scenario.complex_3

/-- The legacy tensor counterpart of scenario C: a tensor of complex kind,
rank 1, extent [3]. -/
def scenario.C_tensor : MDataArray :=
  MDataArray.tensor MType_Complex 1 [3] scenario.complex_3

/-- A rank-2 legacy tensor of reals, shape [2, 3]. -/
def scenario.real_tensor_rank2 : MDataArray :=
  MDataArray.tensor MType_Real 2 [2, 3] scenario.doubles_1_to_6

/-- A rank-2 numeric array declaring unsigned 8-bit elements, shape [2, 2]. -/
def scenario.ubit8_rank2 : MDataArray :=
  MDataArray.numeric MNumericArray_Type_UBit8 2 [2, 2] [1, 2, 3, 4]

/-- A rank-1 numeric array declaring unsigned 8-bit elements, extent [4]. -/
def scenario.ubit8_rank1 : MDataArray :=
  MDataArray.numeric MNumericArray_Type_UBit8 1 [4] [1, 2, 3, 4]

/-- A rank-1 numeric array declaring signed 32-bit elements, extent [2]. -/
def scenario.bit32_rank1 : MDataArray :=
  MDataArray.numeric MNumericArray_Type_Bit32 1 [2] [7, 0, 0, 0, 9, 0, 0, 0]

/-! ## Scalars and text: `get`, `set_expr`, `set` -/

/-- Modelled from the spec: `MArgument_getBoolean`; defined on a slot holding a
boolean. -/
def MArgument_getBoolean : MArgument → Option Int
  | .boolean v => some v
  | _ => none

/-- Modelled from the spec: `MArgument_getInteger`; defined on a slot holding an
integer. -/
def MArgument_getInteger : MArgument → Option Int
  | .integer v => some v
  | _ => none

/-- Modelled from the spec: `MArgument_getReal`; defined on a slot holding a
real. -/
def MArgument_getReal : MArgument → Option Nat
  | .real x => some x
  | _ => none

/-- Modelled from the spec: `MArgument_getComplex`; defined on a slot holding a
complex, returned as its parts `ri[0]` and `ri[1]`. -/
def MArgument_getComplex : MArgument → Option (Nat × Nat)
  | .cmplex re im => some (re, im)
  | _ => none

/-- Modelled from the spec: `MArgument_setBoolean`. -/
def MArgument_setBoolean (_res : MArgument) (v : Int) : MArgument := MArgument.boolean v

/-- Modelled from the spec: `MArgument_setInteger`. -/
def MArgument_setInteger (_res : MArgument) (v : Int) : MArgument := MArgument.integer v

/-- Modelled from the spec: `MArgument_setReal`. -/
def MArgument_setReal (_res : MArgument) (v : Nat) : MArgument := MArgument.real v

/-- Modelled from the spec: `MArgument_setComplex`. -/
def MArgument_setComplex (_res : MArgument) (v : Nat × Nat) : MArgument :=
  MArgument.cmplex v.1 v.2

/-- Modelled from the spec: the trait `is_boolean_v` of `traits.h`. -/
def is_boolean_v (T : ElemType) : Bool := decide (T = ElemType.boolean)

/-- Modelled from the spec: the trait `is_integral_v` of `traits.h`: the 8, 16,
32 and 64-bit signed and unsigned integers. -/
def is_integral_v : ElemType → Bool
  | .int8_t => true
  | .uint8_t => true
  | .int16_t => true
  | .uint16_t => true
  | .int32_t => true
  | .uint32_t => true
  | .int64_t => true
  | .uint64_t => true
  | _ => false

/-- Modelled from the spec: the trait `is_float_v` of `traits.h`. -/
def is_float_v (T : ElemType) : Bool := decide (T = ElemType.float ∨ T = ElemType.double)

/-- Modelled from the spec: the trait `is_complex_v` of `traits.h`. -/
def is_complex_v (T : ElemType) : Bool :=
  decide (T = ElemType.complex_float ∨ T = ElemType.complex_double)

/-- The signed integer types. -/
def is_signed_v : ElemType → Bool
  | .int8_t => true
  | .int16_t => true
  | .int32_t => true
  | .int64_t => true
  | _ => false

/-- The values of the integer type `T`: `[-2^(n-1), 2^(n-1))` for a signed type
of `n = 8 * sizeof(T)` bits, `[0, 2^n)` for an unsigned one. -/
def in_range (T : ElemType) (v : Int) : Prop :=
  if is_signed_v T then -(2 ^ (8 * sizeof T - 1)) ≤ v ∧ v < 2 ^ (8 * sizeof T - 1)
  else 0 ≤ v ∧ v < 2 ^ (8 * sizeof T)

instance (T : ElemType) (v : Int) : Decidable (in_range T v) :=
  inferInstanceAs (Decidable (if is_signed_v T then
      -(2 ^ (8 * sizeof T - 1)) ≤ v ∧ v < 2 ^ (8 * sizeof T - 1)
    else 0 ≤ v ∧ v < 2 ^ (8 * sizeof T)))

/-- The conversion `T(x)` of an integer to the integer type `T`: the value of
`T` congruent to `x` modulo `2^n`, `n = 8 * sizeof(T)`. -/
def integral_cast (T : ElemType) (x : Int) : Int :=
  if is_signed_v T then
    (x + 2 ^ (8 * sizeof T - 1)) % 2 ^ (8 * sizeof T) - 2 ^ (8 * sizeof T - 1)
  else x % 2 ^ (8 * sizeof T)

/-- The conversion `mbool(val)` of a `boolean` to the host boolean. -/
def mbool (val : Bool) : Int := if val then 1 else 0

/-- A value at the boundary, with its C++ type: the empty value, a boolean, an
integer of type `T`, a floating or complex value of type `T` (carried as the
bit pattern of the binary64 it converts to, one per part), a numeric array, an
array of strings, or a string. -/
inductive CValue
  | void_type
  | boolean (b : Bool)
  | integral (T : ElemType) (v : Int)
  | floating (T : ElemType) (x : Nat)
  | complex (T : ElemType) (re im : Nat)
  | array (T : ElemType) (R : Nat) (a : ndarray T R)
  | string_array (R : Nat) (dims : List Nat) (data : List String)
  | string (s : String)

/-- The conversion `T(x)` of a host real to the floating type `T`: the identity
for `double`, the rounding `narrow` to binary32 for `float`. -/
def floating_cast (narrow : Nat → Nat) (T : ElemType) (x : Nat) : Nat :=
  if T = ElemType.double ∨ T = ElemType.complex_double then x else narrow x

/-- The outcome of `get_array`, as a value. -/
def get.array (T : ElemType) (R : Nat) (r : Outcome (ndarray T R) × World) :
    Outcome CValue × World :=
  match r with
  | (Outcome.ok a, w) => (Outcome.ok (CValue.array T R a), w)
  | (Outcome.throw e, w) => (Outcome.throw e, w)
  | (Outcome.undefined, w) => (Outcome.undefined, w)

/-- The function template `get<T>(arg)`. The result is `none` for the types at
which the template does not instantiate (its `static_assert`, or that of
`get_numeric_array_type`). `narrow` is the rounding of a binary64 to binary32,
used where a host real is converted to `float`. -/
def get (narrow : Nat → Nat) (T : CType) (arg : MArgument) (w : World) :
    Option (Outcome CValue × World) :=
  match T with
  | CType.elem t =>
    if is_boolean_v t then
      match MArgument_getBoolean arg with
      | none => some (Outcome.undefined, w)
      | some m => some (Outcome.ok (CValue.boolean (decide (m ≠ 0))), w)
    else if is_integral_v t then
      match MArgument_getInteger arg with
      | none => some (Outcome.undefined, w)
      | some m => some (Outcome.ok (CValue.integral t (integral_cast t m)), w)
    else if is_float_v t then
      match MArgument_getReal arg with
      | none => some (Outcome.undefined, w)
      | some x => some (Outcome.ok (CValue.floating t (floating_cast narrow t x)), w)
    else if is_complex_v t then
      match MArgument_getComplex arg with
      | none => some (Outcome.undefined, w)
      | some val =>
        some (Outcome.ok (CValue.complex t (floating_cast narrow t val.1)
          (floating_cast narrow t val.2)), w)
    else none
  | CType.ndarray (CType.elem t) R => some (get.array t R (get_array t R arg w))
  | _ => none

/-- The arguments `set` passes to `set_expr`: an array of strings (with its
rank, shape and elements) or a string. -/
inductive Any
  | ndarray (R : Nat) (dims : List Nat) (data : List String)
  | string (s : String)
  deriving DecidableEq, Repr

/-- The function template `set_expr(any)`: the calls on a fresh
`mathlink::link_t`, in order. -/
def set_expr (any : Any) (w : World) : World :=
  let link := w.trace ++ [Event.link_put_function "EvaluatePacket" 1,
    Event.link_put_function "CompoundExpression" 2, Event.link_put_function "Set" 2,
    Event.link_put_symbol "linkreturn"]
  let link :=
    match any with
    | Any.ndarray _ dims data => link ++ [Event.link_put_array dims data]
    | Any.string s => link ++ [Event.link_put_string s]
  { w with trace := link ++ [Event.link_put_symbol "Null", Event.link_eof] }

/-- The function template `set<T>(res, val)`: the outcome, the slot `res` after
the call, and the world after the call. Each arm is one `if constexpr` branch,
in the order of the source. -/
def set (res : MArgument) (val : CValue) (w : World) : Outcome Unit × MArgument × World :=
  match val with
  | CValue.void_type => (Outcome.ok (), res, w)
  | CValue.boolean b => (Outcome.ok (), MArgument_setBoolean res (mbool b), w)
  | CValue.integral _ v => (Outcome.ok (), MArgument_setInteger res (mint_wrap v), w)
  | CValue.floating _ x => (Outcome.ok (), MArgument_setReal res x, w)
  | CValue.complex _ re im => (Outcome.ok (), MArgument_setComplex res (re, im), w)
  | CValue.array T R a => set_array T R res a w
  | CValue.string_array R dims data => (Outcome.ok (), res, set_expr (Any.ndarray R dims data) w)
  | CValue.string s => (Outcome.ok (), res, set_expr (Any.string s) w)

/-- The error code returned by the creation call `set_array<T, R>(res, val)`
makes: `MTensor_new` on the legacy tensor branch, `MNumericArray_new` on the
numeric array branch. -/
def set_array.creation_error (T : ElemType) (R : Nat) (val : ndarray T R) (w : World) : Int :=
  match set_array.pass_by_tensor (get_numeric_array_type T) with
  | Outcome.ok true => (MTensor_new (MType_of T) R (val.dims.take R) w).1
  | _ => (MNumericArray_new (get_numeric_array_type T) R (val.dims.take R) w).1

/-- A host with no array objects whose creation calls fail with error code 5. -/
def scenario.failing_world : World := { heap := [], new_error := 5, trace := [] }

/-- A rank-2 legacy tensor of integers, shape [1, 2]. -/
def scenario.integer_tensor_rank2 : MDataArray :=
  MDataArray.tensor MType_Integer 2 [1, 2] (List.replicate 16 0)

/-- A rank-1 numeric array declaring signed 8-bit elements, extent [3]. -/
def scenario.bit8_rank1 : MDataArray :=
  MDataArray.numeric MNumericArray_Type_Bit8 1 [3] [1, 0, 1]

/-! ## Properties of `get_return_type_id` -/

theorem mint_wrap_of_range (x : Int) (h0 : -2 ^ 63 ≤ x) (h1 : x < 2 ^ 63) : mint_wrap x = x := by
  unfold mint_wrap
  have h : (x + 2 ^ 63) % 2 ^ 64 = x + 2 ^ 63 := Int.emod_eq_of_lt (by omega) (by omega)
  omega

theorem get_return_type_id_type_eq_code (V : CType) : get_return_type_id.type V = code V := by
  cases V with
  | void_type => rfl
  | elem t => cases t <;> rfl
  | string => rfl
  | other n => simp [get_return_type_id.type, code, get_return_type_id.MathLink]
  | ndarray V R => simp [get_return_type_id.type, code, get_return_type_id.MathLink]

theorem code_bounds (V : CType) : 1 ≤ code V ∧ code V ≤ 15 := by
  cases V with
  | void_type => decide
  | elem t => cases t <;> decide
  | string => decide
  | other n => simp [code]
  | ndarray V R => simp [code]

theorem code_injective_on_enumerated (V1 V2 : CType) (h1 : enumerated V1 = true)
    (h2 : enumerated V2 = true) (h : code V1 = code V2) : V1 = V2 := by
  cases V1 with
  | void_type =>
    cases V2 with
    | void_type => rfl
    | elem t => cases t <;> simp [code] at h
    | string => simp [enumerated] at h2
    | other n => simp [enumerated] at h2
    | ndarray V R => simp [enumerated] at h2
  | elem s =>
    cases V2 with
    | void_type => cases s <;> simp [code] at h
    | elem t => cases s <;> cases t <;> first | rfl | simp [code] at h
    | string => simp [enumerated] at h2
    | other n => simp [enumerated] at h2
    | ndarray V R => simp [enumerated] at h2
  | string => simp [enumerated] at h1
  | other n => simp [enumerated] at h1
  | ndarray V R => simp [enumerated] at h1

theorem get_return_type_id_V_eq (RT : CType) :
    (if is_array_v RT then value_type_t RT else RT) = value_type_t RT := by
  cases RT <;> simp [is_array_v, value_type_t]

theorem get_return_type_id_of_small_rank (RT : CType) (h : array_rank_v RT < 2 ^ 55) :
    get_return_type_id RT = (array_rank_v RT : Int) * 256 + code (value_type_t RT) := by
  have hb := code_bounds (value_type_t RT)
  have hr : (0 : Int) ≤ (array_rank_v RT : Int) := Int.ofNat_nonneg _
  have hr2 : (array_rank_v RT : Int) < 2 ^ 55 := by exact_mod_cast h
  unfold get_return_type_id
  simp only [get_return_type_id_V_eq, get_return_type_id_type_eq_code,
    get_return_type_id.max_type_count]
  rw [mint_wrap_of_range (array_rank_v RT : Int) (by omega) (by omega)]
  rw [mint_wrap_of_range ((array_rank_v RT : Int) * 256) (by omega) (by omega)]
  rw [mint_wrap_of_range _ (by omega) (by omega)]

/-- C1 (as stated, refuted): the return type `ndarray<void_type, 2^55>` has rank
`2^55` and element type code 2, but `get_return_type_id` does not return
`2^55 * 256 + 2`, which no 64-bit `mint` can hold; the product wraps to
`-2^63 + 2`. -/
theorem C1_counterexample :
    array_rank_v (CType.ndarray CType.void_type (2 ^ 55)) = 2 ^ 55
    ∧ code (value_type_t (CType.ndarray CType.void_type (2 ^ 55))) = 2
    ∧ get_return_type_id (CType.ndarray CType.void_type (2 ^ 55)) = -2 ^ 63 + 2
    ∧ get_return_type_id (CType.ndarray CType.void_type (2 ^ 55))
        ≠ ((2 ^ 55 : Nat) : Int) * 256 + 2 := by
  decide

/-- C1 (amended): for every return type whose rank `R` is below `2^55` (so that
`R * 256` fits the 64-bit host integer), with element type `T` (the type itself
and `R = 0` for scalars), `get_return_type_id` returns `R * 256 + code(T)`,
where `code` is 1 for native-call-only types (every type outside the
numeric/boolean/void list, such as a string), 2 for the empty type, 3 for
booleans, 4..11 for I8, U8, I16, U16, I32, U32, I64, U64, 12 and 13 for R32 and
R64, 14 and 15 for C32 and C64. -/
theorem C1_get_return_type_id_formula (ReturnType : CType)
    (h : array_rank_v ReturnType < 2 ^ 55) :
    get_return_type_id ReturnType
        = (array_rank_v ReturnType : Int) * 256 + code (value_type_t ReturnType)
    ∧ code CType.void_type = 2 ∧ code (CType.elem ElemType.boolean) = 3
    ∧ code (CType.elem ElemType.int8_t) = 4 ∧ code (CType.elem ElemType.uint8_t) = 5
    ∧ code (CType.elem ElemType.int16_t) = 6 ∧ code (CType.elem ElemType.uint16_t) = 7
    ∧ code (CType.elem ElemType.int32_t) = 8 ∧ code (CType.elem ElemType.uint32_t) = 9
    ∧ code (CType.elem ElemType.int64_t) = 10 ∧ code (CType.elem ElemType.uint64_t) = 11
    ∧ code (CType.elem ElemType.float) = 12 ∧ code (CType.elem ElemType.double) = 13
    ∧ code (CType.elem ElemType.complex_float) = 14
    ∧ code (CType.elem ElemType.complex_double) = 15
    ∧ code CType.string = 1 ∧ (∀ n, code (CType.other n) = 1)
    ∧ (∀ V R, code (CType.ndarray V R) = 1) := by
  refine ⟨get_return_type_id_of_small_rank ReturnType h, ?_⟩
  simp [code]

/-- C1 (amended), witness: a rank-2 array of doubles gets `2 * 256 + 13`. -/
theorem C1_get_return_type_id_formula_witness :
    array_rank_v (CType.ndarray (CType.elem ElemType.double) 2) < 2 ^ 55
    ∧ get_return_type_id (CType.ndarray (CType.elem ElemType.double) 2) = 525 :=
  ⟨by decide, by
    have h := (C1_get_return_type_id_formula (CType.ndarray (CType.elem ElemType.double) 2)
      (by decide)).1
    simpa [array_rank_v, value_type_t, code] using h⟩

/-- C2: `get_return_type_id` is injective on the supported enumeration. For
return types whose ranks are below `2^55` (so that `R * 256` does not overflow
the host integer), equal identifiers force equal ranks and equal type codes, and
equal element types when both element types have a code of their own (the empty
type and the numeric and boolean types); the type code is the identifier modulo
256 and the rank is the identifier divided by 256. -/
theorem C2_get_return_type_id_injective (RT1 RT2 : CType)
    (h1 : array_rank_v RT1 < 2 ^ 55) (h2 : array_rank_v RT2 < 2 ^ 55) :
    (get_return_type_id RT1 = get_return_type_id RT2 →
        array_rank_v RT1 = array_rank_v RT2
        ∧ code (value_type_t RT1) = code (value_type_t RT2)
        ∧ (enumerated (value_type_t RT1) = true → enumerated (value_type_t RT2) = true →
            value_type_t RT1 = value_type_t RT2))
    ∧ get_return_type_id RT1 % 256 = code (value_type_t RT1)
    ∧ get_return_type_id RT1 / 256 = (array_rank_v RT1 : Int) := by
  have e1 := get_return_type_id_of_small_rank RT1 h1
  have e2 := get_return_type_id_of_small_rank RT2 h2
  have b1 := code_bounds (value_type_t RT1)
  have b2 := code_bounds (value_type_t RT2)
  refine ⟨?_, ?_, ?_⟩
  · intro h
    rw [e1, e2] at h
    have hr : (array_rank_v RT1 : Int) = (array_rank_v RT2 : Int) := by omega
    have hc : code (value_type_t RT1) = code (value_type_t RT2) := by omega
    exact ⟨by exact_mod_cast hr, hc, fun g1 g2 => code_injective_on_enumerated _ _ g1 g2 hc⟩
  · rw [e1]; omega
  · rw [e1]; omega

/-- C2, witness: two distinct return types of small rank, a rank-1 array of
`int8_t` and a scalar boolean; their identifiers differ and the first decodes
as stated. -/
theorem C2_get_return_type_id_injective_witness :
    get_return_type_id (CType.ndarray (CType.elem ElemType.int8_t) 1) % 256 = 4
    ∧ get_return_type_id (CType.ndarray (CType.elem ElemType.int8_t) 1) / 256 = 1
    ∧ get_return_type_id (CType.ndarray (CType.elem ElemType.int8_t) 1)
        ≠ get_return_type_id (CType.elem ElemType.boolean) := by
  have h := C2_get_return_type_id_injective (CType.ndarray (CType.elem ElemType.int8_t) 1)
    (CType.elem ElemType.boolean) (by decide) (by decide)
  refine ⟨by simpa [value_type_t, code] using h.2.1,
    by simpa [array_rank_v] using h.2.2, fun e => ?_⟩
  simpa [array_rank_v] using (h.1 e).1

/-! ## The encoding selector -/

theorem get_array_pass_by_tensor_eq (T : ElemType) :
    get_array.pass_by_tensor (get_numeric_array_type T)
      = Outcome.ok (decide (Encoding.of T = Encoding.LegacyTensor)) := by
  cases T <;> rfl

theorem set_array_pass_by_tensor_eq (T : ElemType) :
    set_array.pass_by_tensor (get_numeric_array_type T)
      = Outcome.ok (decide (Encoding.of T = Encoding.LegacyTensor)) := by
  cases T <;> rfl

theorem get_array_of_tensor (T : ElemType) (R : Nat) (arg : MArgument) (w : World)
    (h : Encoding.of T = Encoding.LegacyTensor) :
    get_array T R arg w = get_array.by_tensor T R (get_numeric_array_type T) arg w := by
  simp [get_array, get_array_pass_by_tensor_eq, h]

theorem get_array_of_numeric (T : ElemType) (R : Nat) (arg : MArgument) (w : World)
    (h : Encoding.of T = Encoding.NumericArray) :
    get_array T R arg w = get_array.by_numeric_array T R (get_numeric_array_type T) arg w := by
  simp [get_array, get_array_pass_by_tensor_eq, h]

theorem set_array_of_tensor (T : ElemType) (R : Nat) (res : MArgument) (val : ndarray T R)
    (w : World) (h : Encoding.of T = Encoding.LegacyTensor) :
    set_array T R res val w = set_array.by_tensor (MType_of T) (val.dims.take R) res val w := by
  cases T <;> first | rfl | (exact absurd h (by decide))

theorem set_array_of_numeric (T : ElemType) (R : Nat) (res : MArgument) (val : ndarray T R)
    (w : World) (h : Encoding.of T = Encoding.NumericArray) :
    set_array T R res val w
      = set_array.by_numeric_array (get_numeric_array_type T) (val.dims.take R) res val w := by
  cases T <;> first | rfl | (exact absurd h (by decide))

/-- C3: for every supported element type `T`, the flag `pass_by_tensor` is set
by the switch of `get_array` exactly when `T` is `int64_t`, `double` or
`complex<double>`, and cleared for every other type; the switch of `set_array`
decides the same; and for every rank, slot, array and world both functions run
their legacy tensor branch for those three types and their numeric array branch
for all others (the decision takes neither the rank nor the shape). -/
theorem C3_encoding_selection (T : ElemType) :
    (get_array.pass_by_tensor (get_numeric_array_type T) = Outcome.ok true
        ↔ (T = ElemType.int64_t ∨ T = ElemType.double ∨ T = ElemType.complex_double))
    ∧ (get_array.pass_by_tensor (get_numeric_array_type T) = Outcome.ok false
        ↔ ¬ (T = ElemType.int64_t ∨ T = ElemType.double ∨ T = ElemType.complex_double))
    ∧ set_array.pass_by_tensor (get_numeric_array_type T)
        = get_array.pass_by_tensor (get_numeric_array_type T)
    ∧ (∀ (R : Nat) (arg : MArgument) (w : World),
        get_array T R arg w =
          if T = ElemType.int64_t ∨ T = ElemType.double ∨ T = ElemType.complex_double then
            get_array.by_tensor T R (get_numeric_array_type T) arg w
          else get_array.by_numeric_array T R (get_numeric_array_type T) arg w)
    ∧ (∀ (R : Nat) (res : MArgument) (val : ndarray T R) (w : World),
        set_array T R res val w =
          if T = ElemType.int64_t ∨ T = ElemType.double ∨ T = ElemType.complex_double then
            set_array.by_tensor (MType_of T) (val.dims.take R) res val w
          else
            set_array.by_numeric_array (get_numeric_array_type T) (val.dims.take R)
              res val w) := by
  refine ⟨?_, ?_, ?_, ?_, ?_⟩
  · cases T <;> decide
  · cases T <;> decide
  · cases T <;> rfl
  · intro R arg w
    cases T <;> rfl
  · intro R res val w
    cases T <;> rfl

/-! ## Bulk copies -/

theorem memcpy_fresh (src : List Byte) (n : Nat) (h : n ≤ src.length) :
    memcpy (List.replicate n 0) src n = some (src.take n) := by
  simp [memcpy, h]

theorem memcpy_eq_some (dst src : List Byte) (n : Nat) (bytes : List Byte)
    (h : memcpy dst src n = some bytes) :
    n ≤ src.length ∧ n ≤ dst.length ∧ bytes = src.take n ++ dst.drop n := by
  unfold memcpy at h
  split at h
  · rename_i hc
    simp only [Option.some.injEq] at h
    exact ⟨hc.1, hc.2, h.symm⟩
  · simp at h

theorem sizeof_eq_numeric_width (T : ElemType) :
    MNumericArray_width (get_numeric_array_type T) = sizeof T := by
  cases T <;> rfl

theorem sizeof_eq_tensor_width (T : ElemType) (h : Encoding.of T = Encoding.LegacyTensor) :
    MTensor_width (MType_of T) = sizeof T := by
  cases T <;> first | rfl | (exact absurd h (by decide))

theorem get_array_copy_ok (T : ElemType) (R : Nat) (dims : List Nat) (ptr : List Byte)
    (w : World) (h : dims.prod * sizeof T ≤ ptr.length) :
    get_array.copy T R dims ptr w
      = (Outcome.ok { dims := dims, data := ptr.take (dims.prod * sizeof T) },
          { w with trace := w.trace ++ [Event.ndarray_ctor T dims,
                                        Event.memcpy (dims.prod * sizeof T)] }) := by
  simp [get_array.copy, ndarray.ctor, ndarray.size, utils.size_of_dims, memcpy_fresh _ _ h]

theorem get_array_copy_inv (T : ElemType) (R : Nat) (dims : List Nat) (ptr : List Byte)
    (w w' : World) (a : ndarray T R) (h : get_array.copy T R dims ptr w = (Outcome.ok a, w')) :
    dims.prod * sizeof T ≤ ptr.length
    ∧ a = { dims := dims, data := ptr.take (dims.prod * sizeof T) }
    ∧ w' = { w with trace := w.trace ++ [Event.ndarray_ctor T dims,
                                         Event.memcpy (dims.prod * sizeof T)] } := by
  by_cases hl : dims.prod * sizeof T ≤ ptr.length
  · rw [get_array_copy_ok T R dims ptr w hl] at h
    simp only [Prod.mk.injEq, Outcome.ok.injEq] at h
    exact ⟨hl, h.1.symm, h.2.symm⟩
  · exfalso
    simp [get_array.copy, ndarray.ctor, ndarray.size, utils.size_of_dims, memcpy, hl] at h

theorem get_array_copy_not_throw (T : ElemType) (R : Nat) (dims : List Nat) (ptr : List Byte)
    (w : World) (e : Int) : (get_array.copy T R dims ptr w).1 ≠ Outcome.throw e := by
  unfold get_array.copy
  simp only
  split <;> simp

/-! ## Reading arrays -/

theorem MTensor_get_of_object (arg : MArgument) (w : World) (type : Int) (rank : Nat)
    (dims : List Nat) (data : List Byte)
    (h : arg.object w = some (MDataArray.tensor type rank dims data)) :
    ∃ tensor, MArgument_getMTensor arg = some tensor
      ∧ MTensor_get w tensor = some (type, rank, dims, data) := by
  cases arg <;> simp [MArgument.object] at h
  · exact ⟨_, rfl, by simp [MTensor_get, h]⟩
  · exact ⟨_, rfl, by simp [MTensor_get, h]⟩

theorem MNumericArray_get_of_object (arg : MArgument) (w : World) (type : numericarray_data_t)
    (rank : Nat) (dims : List Nat) (data : List Byte)
    (h : arg.object w = some (MDataArray.numeric type rank dims data)) :
    ∃ narray, MArgument_getMNumericArray arg = some narray
      ∧ MNumericArray_get w narray = some (type, rank, dims, data) := by
  cases arg <;> simp [MArgument.object] at h
  · exact ⟨_, rfl, by simp [MNumericArray_get, h]⟩
  · exact ⟨_, rfl, by simp [MNumericArray_get, h]⟩

theorem MTensor_get_inv (arg : MArgument) (w : World) (tensor : Nat) (type : Int) (rank : Nat)
    (dims : List Nat) (data : List Byte) (h1 : MArgument_getMTensor arg = some tensor)
    (h2 : MTensor_get w tensor = some (type, rank, dims, data)) :
    arg.object w = some (MDataArray.tensor type rank dims data) := by
  unfold MTensor_get at h2
  split at h2
  · rename_i ty r d b hh
    simp only [Option.some.injEq, Prod.mk.injEq] at h2
    obtain ⟨rfl, rfl, rfl, rfl⟩ := h2
    cases arg <;> simp [MArgument_getMTensor] at h1 <;> subst h1 <;> simpa [MArgument.object] using hh
  · simp at h2

theorem MNumericArray_get_inv (arg : MArgument) (w : World) (narray : Nat)
    (type : numericarray_data_t) (rank : Nat) (dims : List Nat) (data : List Byte)
    (h1 : MArgument_getMNumericArray arg = some narray)
    (h2 : MNumericArray_get w narray = some (type, rank, dims, data)) :
    arg.object w = some (MDataArray.numeric type rank dims data) := by
  unfold MNumericArray_get at h2
  split at h2
  · rename_i ty r d b hh
    simp only [Option.some.injEq, Prod.mk.injEq] at h2
    obtain ⟨rfl, rfl, rfl, rfl⟩ := h2
    cases arg <;> simp [MArgument_getMNumericArray] at h1 <;> subst h1 <;>
      simpa [MArgument.object] using hh
  · simp at h2

theorem get_array_by_tensor_inv (T : ElemType) (R : Nat) (type : numericarray_data_t)
    (arg : MArgument) (w w' : World) (a : ndarray T R)
    (h : get_array.by_tensor T R type arg w = (Outcome.ok a, w')) :
    ∃ ty dims data, arg.object w = some (MDataArray.tensor ty R dims data)
      ∧ R ≤ dims.length
      ∧ get_array.copy T R (dims.take R) data w = (Outcome.ok a, w') := by
  unfold get_array.by_tensor at h
  split at h
  · simp at h
  · rename_i tensor h1
    split at h
    · simp at h
    · rename_i input_type input_rank input_dims ptr h2
      have hobj := MTensor_get_inv arg w tensor _ _ _ _ h1 h2
      split at h
      · simp at h
      · rename_i hr
        have hr2 : input_rank = R := by simpa using hr
        subst hr2
        split at h
        · simp at h
        · rename_i hlen
          refine ⟨input_type, input_dims, ptr, hobj, by omega, ?_⟩
          simp only at h
          split at h
          · split at h
            · simp at h
            · exact h
          · split at h
            · split at h
              · simp at h
              · exact h
            · split at h
              · simp at h
              · exact h

theorem get_array_by_numeric_array_inv (T : ElemType) (R : Nat) (type : numericarray_data_t)
    (arg : MArgument) (w w' : World) (a : ndarray T R)
    (h : get_array.by_numeric_array T R type arg w = (Outcome.ok a, w')) :
    ∃ dims data, arg.object w = some (MDataArray.numeric type R dims data)
      ∧ R ≤ dims.length
      ∧ get_array.copy T R (dims.take R) data w = (Outcome.ok a, w') := by
  unfold get_array.by_numeric_array at h
  split at h
  · simp at h
  · rename_i narray h1
    split at h
    · simp at h
    · rename_i input_type input_rank input_dims ptr h2
      have hobj := MNumericArray_get_inv arg w narray _ _ _ _ h1 h2
      split at h
      · simp at h
      · rename_i ht
        have ht2 : input_type = type := by simpa using ht
        subst ht2
        split at h
        · simp at h
        · rename_i hr
          have hr2 : input_rank = R := by simpa using hr
          subst hr2
          split at h
          · simp at h
          · rename_i hlen
            exact ⟨input_dims, ptr, hobj, by omega, h⟩

theorem get_array_inv (T : ElemType) (R : Nat) (arg : MArgument) (w w' : World)
    (a : ndarray T R) (h : get_array T R arg w = (Outcome.ok a, w')) :
    ∃ obj, arg.object w = some obj ∧ obj.expected_for T ∧ obj.rank = R
      ∧ R ≤ obj.dims.length
      ∧ get_array.copy T R (obj.dims.take R) obj.data w = (Outcome.ok a, w') := by
  rcases hE : Encoding.of T with _ | _
  · rw [get_array_of_tensor T R arg w hE] at h
    obtain ⟨ty, dims, data, h1, h2, h3⟩ := get_array_by_tensor_inv T R _ arg w w' a h
    exact ⟨_, h1, hE, rfl, h2, h3⟩
  · rw [get_array_of_numeric T R arg w hE] at h
    obtain ⟨dims, data, h1, h2, h3⟩ := get_array_by_numeric_array_inv T R _ arg w w' a h
    exact ⟨_, h1, ⟨hE, rfl⟩, rfl, h2, h3⟩

/-- C5 (as stated, refuted): a slot holds a numeric array handle, the encoding
selected for `float`, declaring rank 2 and unsigned 8-bit elements; read with
`get_array<float, 3>` its rank differs from 3, yet the call fails with
`LIBRARY_TYPE_ERROR`, not with `LIBRARY_RANK_ERROR`: on the numeric array path
the type tag is compared first. -/
theorem C5_counterexample :
    (MArgument.numeric 0).object (scenario.world_with scenario.ubit8_rank2)
        = some scenario.ubit8_rank2
    ∧ scenario.ubit8_rank2.encoding = Encoding.of ElemType.float
    ∧ scenario.ubit8_rank2.rank ≠ 3
    ∧ get_array ElemType.float 3 (MArgument.numeric 0)
          (scenario.world_with scenario.ubit8_rank2)
        = (Outcome.throw LIBRARY_TYPE_ERROR, scenario.world_with scenario.ubit8_rank2)
    ∧ LIBRARY_TYPE_ERROR ≠ LIBRARY_RANK_ERROR := by
  decide

/-- C5 (amended): rank mismatch detection. For every supported element type `T`
and static rank `R`, if the slot holds a handle of the encoding selected for `T`
(on the numeric array path: one whose declared type tag is the tag of `T`) and
the declared rank differs from `R`, then `get_array<T, R>` fails with
`LIBRARY_RANK_ERROR` and leaves the world as it was: no Compiled Array is
allocated and nothing is copied. -/
theorem C5_rank_mismatch (T : ElemType) (R : Nat) (arg : MArgument) (w : World)
    (obj : MDataArray) (hobj : arg.object w = some obj) (hexp : obj.expected_for T)
    (hr : obj.rank ≠ R) :
    get_array T R arg w = (Outcome.throw LIBRARY_RANK_ERROR, w) := by
  cases obj with
  | tensor type rank dims data =>
    have hE : Encoding.of T = Encoding.LegacyTensor := hexp
    obtain ⟨tensor, h1, h2⟩ := MTensor_get_of_object arg w _ _ _ _ hobj
    have hr2 : rank ≠ R := hr
    rw [get_array_of_tensor T R arg w hE]
    simp [get_array.by_tensor, h1, h2, hr2]
  | numeric type rank dims data =>
    obtain ⟨hE, ht⟩ : Encoding.of T = Encoding.NumericArray
        ∧ type = get_numeric_array_type T := hexp
    obtain ⟨narray, h1, h2⟩ := MNumericArray_get_of_object arg w _ _ _ _ hobj
    have hr2 : rank ≠ R := hr
    rw [get_array_of_numeric T R arg w hE]
    simp [get_array.by_numeric_array, h1, h2, hr2, ht]

/-- C5 (amended), witness: a handle declaring rank 2 (a real tensor of shape
[2, 3]) read with `R = 3` fails with `LIBRARY_RANK_ERROR`; the trace stays
empty. -/
theorem C5_rank_mismatch_witness :
    get_array ElemType.double 3 (MArgument.tensor 0)
        (scenario.world_with scenario.real_tensor_rank2)
      = (Outcome.throw LIBRARY_RANK_ERROR, scenario.world_with scenario.real_tensor_rank2)
    ∧ (scenario.world_with scenario.real_tensor_rank2).trace = [] :=
  ⟨C5_rank_mismatch ElemType.double 3 (MArgument.tensor 0)
      (scenario.world_with scenario.real_tensor_rank2) scenario.real_tensor_rank2
      (by decide) (by decide) (by decide), by decide⟩

/-- C6: type mismatch detection. For every element type `T` on the numeric array
path, every rank `R`, and every slot holding a numeric array handle whose
declared type tag differs from `get_numeric_array_type<T>()`, `get_array<T, R>`
fails with `LIBRARY_TYPE_ERROR` and leaves the world as it was: no Compiled
Array is allocated and nothing is copied. -/
theorem C6_type_mismatch (T : ElemType) (R : Nat) (arg : MArgument) (w : World)
    (type : numericarray_data_t) (rank : Nat) (dims : List Nat) (data : List Byte)
    (hE : get_array.pass_by_tensor (get_numeric_array_type T) = Outcome.ok false)
    (hobj : arg.object w = some (MDataArray.numeric type rank dims data))
    (ht : type ≠ get_numeric_array_type T) :
    get_array T R arg w = (Outcome.throw LIBRARY_TYPE_ERROR, w) := by
  obtain ⟨narray, h1, h2⟩ := MNumericArray_get_of_object arg w _ _ _ _ hobj
  simp [get_array, hE, get_array.by_numeric_array, h1, h2, ht]

/-- C6, witness: a handle declaring unsigned 8-bit elements read as 32-bit float
fails with `LIBRARY_TYPE_ERROR`; the trace stays empty. -/
theorem C6_type_mismatch_witness :
    get_array ElemType.float 1 (MArgument.numeric 0)
        (scenario.world_with scenario.ubit8_rank1)
      = (Outcome.throw LIBRARY_TYPE_ERROR, scenario.world_with scenario.ubit8_rank1)
    ∧ (scenario.world_with scenario.ubit8_rank1).trace = [] :=
  ⟨C6_type_mismatch ElemType.float 1 (MArgument.numeric 0)
      (scenario.world_with scenario.ubit8_rank1) MNumericArray_Type_UBit8 1 [4] [1, 2, 3, 4]
      (by decide) (by decide) (by decide), by decide⟩

/-- C7: successful read postcondition. For every supported `T` and `R`, when
`get_array<T, R>` succeeds, the slot holds a handle of a host object declaring
rank `R`; the returned Compiled Array has as shape the `R` declared extents, its
element count is their product, and its contents are the first
`product * sizeof(T)` bytes of the host buffer; the host heap (handle and
buffer) is unchanged, and the only effects are one allocation of the result and
one bulk copy of that many bytes. -/
theorem C7_read_postcondition (T : ElemType) (R : Nat) (arg : MArgument) (w w' : World)
    (a : ndarray T R) (h : get_array T R arg w = (Outcome.ok a, w')) :
    ∃ obj, arg.object w = some obj
      ∧ obj.rank = R
      ∧ a.dims = obj.dims.take R
      ∧ a.dims.length = R
      ∧ a.size = (obj.dims.take R).prod
      ∧ a.data = obj.data.take ((obj.dims.take R).prod * sizeof T)
      ∧ a.data.length = (obj.dims.take R).prod * sizeof T
      ∧ w'.heap = w.heap
      ∧ w'.new_error = w.new_error
      ∧ w'.trace = w.trace ++ [Event.ndarray_ctor T (obj.dims.take R),
                               Event.memcpy ((obj.dims.take R).prod * sizeof T)] := by
  obtain ⟨obj, h1, _, h3, h4, h5⟩ := get_array_inv T R arg w w' a h
  obtain ⟨hl, ha, hw⟩ := get_array_copy_inv T R _ _ w w' a h5
  subst ha hw
  refine ⟨obj, h1, h3, rfl, ?_, rfl, rfl, ?_, rfl, rfl, rfl⟩
  · simp [List.length_take, h4]
  · simp [List.length_take, hl]

/-- C7, witness: reading a rank-1 numeric array of two signed 32-bit integers
succeeds and returns its extent and its eight bytes. -/
theorem C7_read_postcondition_witness :
    get_array ElemType.int32_t 1 (MArgument.numeric 0)
        (scenario.world_with scenario.bit32_rank1)
      = (Outcome.ok { dims := [2], data := [7, 0, 0, 0, 9, 0, 0, 0] },
          { heap := [scenario.bit32_rank1], new_error := 0,
            trace := [Event.ndarray_ctor ElemType.int32_t [2], Event.memcpy 8] })
    ∧ ∃ obj, (MArgument.numeric 0).object (scenario.world_with scenario.bit32_rank1) = some obj
      ∧ obj.rank = 1
      ∧ ([2] : List Nat) = obj.dims.take 1
      ∧ ([7, 0, 0, 0, 9, 0, 0, 0] : List Byte) = obj.data.take ((obj.dims.take 1).prod * 4) :=
  have h : get_array ElemType.int32_t 1 (MArgument.numeric 0)
        (scenario.world_with scenario.bit32_rank1)
      = (Outcome.ok { dims := [2], data := [7, 0, 0, 0, 9, 0, 0, 0] },
          { heap := [scenario.bit32_rank1], new_error := 0,
            trace := [Event.ndarray_ctor ElemType.int32_t [2], Event.memcpy 8] }) := by
    decide
  ⟨h, by
    obtain ⟨obj, h1, h2, h3, _, _, h6, _⟩ := C7_read_postcondition ElemType.int32_t 1
      (MArgument.numeric 0) (scenario.world_with scenario.bit32_rank1) _ _ h
    exact ⟨obj, h1, h2, h3, h6⟩⟩

/-! ## Writing arrays -/

theorem set_array_copy_new {T : ElemType} {R : Nat} (val : ndarray T R) (heap : List MDataArray)
    (e : Int) (tr : List Event) (obj : MDataArray) :
    set_array.copy heap.length val { heap := heap ++ [obj], new_error := e, trace := tr }
      = (memcpy obj.data val.data (val.size * sizeof T)).map fun bytes =>
          { heap := heap ++ [obj.with_data bytes], new_error := e,
            trace := tr ++ [Event.memcpy (val.size * sizeof T)] } := by
  unfold set_array.copy
  simp only [List.getElem?_concat_length]
  cases memcpy obj.data val.data (val.size * sizeof T) with
  | none => rfl
  | some bytes => simp [List.set_append_right]

theorem memcpy_whole (src : List Byte) (n : Nat) (h : src.length = n) :
    memcpy (List.replicate n 0) src n = some src := by
  rw [memcpy_fresh src n (by omega)]
  simp [← h]

theorem set_array_by_tensor_inv {T : ElemType} {R : Nat} (kind : Int) (output_dims : List Nat)
    (res res' : MArgument) (val : ndarray T R) (w w' : World)
    (h : set_array.by_tensor kind output_dims res val w = (Outcome.ok (), res', w')) :
    w.new_error = 0 ∧ res' = MArgument_setMTensor res w.heap.length
    ∧ ∃ bytes,
        memcpy (List.replicate ((output_dims.take R).prod * MTensor_width kind) 0) val.data
            (val.size * sizeof T) = some bytes
        ∧ w' = { heap := w.heap ++ [MDataArray.tensor kind R (output_dims.take R) bytes],
                 new_error := w.new_error,
                 trace := w.trace ++ [Event.memcpy (val.size * sizeof T)] } := by
  unfold set_array.by_tensor MTensor_new at h
  by_cases he : w.new_error = 0
  · simp only [he, ne_eq, not_true_eq_false, ↓reduceIte] at h
    rw [set_array_copy_new] at h
    simp only [MDataArray.data, utils.size_of_dims] at h
    cases hm : memcpy (List.replicate ((output_dims.take R).prod * MTensor_width kind) 0) val.data
        (val.size * sizeof T) with
    | none => simp [hm] at h
    | some bytes =>
      simp only [hm, Option.map_some', Prod.mk.injEq, true_and] at h
      exact ⟨he, h.1.symm, bytes, rfl, by rw [← h.2, he]; rfl⟩
  · simp [he] at h

theorem set_array_by_numeric_array_inv {T : ElemType} {R : Nat} (type : numericarray_data_t)
    (output_dims : List Nat) (res res' : MArgument) (val : ndarray T R) (w w' : World)
    (h : set_array.by_numeric_array type output_dims res val w = (Outcome.ok (), res', w')) :
    w.new_error = 0 ∧ res' = MArgument_setMTensor res w.heap.length
    ∧ ∃ bytes,
        memcpy (List.replicate ((output_dims.take R).prod * MNumericArray_width type) 0)
            val.data (val.size * sizeof T) = some bytes
        ∧ w' = { heap := w.heap ++ [MDataArray.numeric type R (output_dims.take R) bytes],
                 new_error := w.new_error,
                 trace := w.trace ++ [Event.memcpy (val.size * sizeof T)] } := by
  unfold set_array.by_numeric_array MNumericArray_new at h
  by_cases he : w.new_error = 0
  · simp only [he, ne_eq, not_true_eq_false, ↓reduceIte] at h
    rw [set_array_copy_new] at h
    simp only [MDataArray.data, utils.size_of_dims] at h
    cases hm : memcpy (List.replicate ((output_dims.take R).prod * MNumericArray_width type) 0)
        val.data (val.size * sizeof T) with
    | none => simp [hm] at h
    | some bytes =>
      simp only [hm, Option.map_some', Prod.mk.injEq, true_and] at h
      exact ⟨he, h.1.symm, bytes, rfl, by rw [← h.2, he]; rfl⟩
  · simp [he] at h

theorem ndarray_wf_take {T : ElemType} {R : Nat} (a : ndarray T R) (h : a.wf) :
    (a.dims.take R).take R = a.dims ∧ a.dims.take R = a.dims
    ∧ a.data.length = a.dims.prod * sizeof T := by
  obtain ⟨h1, h2⟩ := h
  have : a.dims.take R = a.dims := List.take_of_length_le (by omega)
  refine ⟨by rw [this, this], this, h2⟩

theorem set_array_tensor_post (T : ElemType) (R : Nat) (res res' : MArgument) (a : ndarray T R)
    (w w' : World) (hE : Encoding.of T = Encoding.LegacyTensor) (hwf : a.wf)
    (h : set_array T R res a w = (Outcome.ok (), res', w')) :
    w.new_error = 0 ∧ res' = MArgument.tensor w.heap.length
    ∧ w' = { heap := w.heap ++ [MDataArray.tensor (MType_of T) R a.dims a.data],
             new_error := w.new_error,
             trace := w.trace ++ [Event.memcpy (a.dims.prod * sizeof T)] } := by
  rw [set_array_of_tensor T R res a w hE] at h
  obtain ⟨he, hres, bytes, hm, hw⟩ := set_array_by_tensor_inv _ _ res res' a w w' h
  obtain ⟨t1, t2, t3⟩ := ndarray_wf_take a hwf
  rw [t1, sizeof_eq_tensor_width T hE] at hm
  rw [t1] at hw
  have hs : a.size = a.dims.prod := rfl
  rw [hs] at hm hw
  rw [memcpy_whole a.data _ t3] at hm
  simp only [Option.some.injEq] at hm
  subst hm
  exact ⟨he, hres, hw⟩

theorem set_array_numeric_post (T : ElemType) (R : Nat) (res res' : MArgument)
    (a : ndarray T R) (w w' : World) (hE : Encoding.of T = Encoding.NumericArray) (hwf : a.wf)
    (h : set_array T R res a w = (Outcome.ok (), res', w')) :
    w.new_error = 0 ∧ res' = MArgument.tensor w.heap.length
    ∧ w' = { heap := w.heap ++ [MDataArray.numeric (get_numeric_array_type T) R a.dims a.data],
             new_error := w.new_error,
             trace := w.trace ++ [Event.memcpy (a.dims.prod * sizeof T)] } := by
  rw [set_array_of_numeric T R res a w hE] at h
  obtain ⟨he, hres, bytes, hm, hw⟩ := set_array_by_numeric_array_inv _ _ res res' a w w' h
  obtain ⟨t1, t2, t3⟩ := ndarray_wf_take a hwf
  rw [t1, sizeof_eq_numeric_width T] at hm
  rw [t1] at hw
  have hs : a.size = a.dims.prod := rfl
  rw [hs] at hm hw
  rw [memcpy_whole a.data _ t3] at hm
  simp only [Option.some.injEq] at hm
  subst hm
  exact ⟨he, hres, hw⟩

theorem get_array_tensor_object (T : ElemType) (R : Nat) (arg : MArgument) (w : World)
    (dims : List Nat) (data : List Byte) (hE : Encoding.of T = Encoding.LegacyTensor)
    (hobj : arg.object w = some (MDataArray.tensor (MType_of T) R dims data))
    (hlen : R ≤ dims.length) :
    get_array T R arg w = get_array.copy T R (dims.take R) data w := by
  obtain ⟨tensor, h1, h2⟩ := MTensor_get_of_object arg w _ _ _ _ hobj
  rw [get_array_of_tensor T R arg w hE]
  have hl : ¬ dims.length < R := by omega
  cases T <;> first
    | (exact absurd hE (by decide))
    | simp [get_array.by_tensor, h1, h2, hl, get_numeric_array_type, MType_of, MType_Integer,
        MType_Real, MType_Complex]

theorem get_array_numeric_object (T : ElemType) (R : Nat) (arg : MArgument) (w : World)
    (dims : List Nat) (data : List Byte) (hE : Encoding.of T = Encoding.NumericArray)
    (hobj : arg.object w = some (MDataArray.numeric (get_numeric_array_type T) R dims data))
    (hlen : R ≤ dims.length) :
    get_array T R arg w = get_array.copy T R (dims.take R) data w := by
  obtain ⟨narray, h1, h2⟩ := MNumericArray_get_of_object arg w _ _ _ _ hobj
  rw [get_array_of_numeric T R arg w hE]
  have hl : ¬ dims.length < R := by omega
  simp [get_array.by_numeric_array, h1, h2, hl]

theorem get_array_copy_wf {T : ElemType} {R : Nat} (a : ndarray T R) (hwf : a.wf) (w : World) :
    get_array.copy T R (a.dims.take R) a.data w
      = (Outcome.ok a,
          { w with trace := w.trace ++ [Event.ndarray_ctor T a.dims,
                                        Event.memcpy (a.dims.prod * sizeof T)] }) := by
  obtain ⟨_, t2, t3⟩ := ndarray_wf_take a hwf
  rw [t2, get_array_copy_ok T R a.dims a.data w (by omega)]
  have : a.data.take (a.dims.prod * sizeof T) = a.data := List.take_of_length_le (by omega)
  rw [this]

/-- C4: round trip. For every supported element type `T`, every rank `R` and
every Compiled Array `a` of type `ndarray<T, R>` (with its invariant: `R`
extents and a buffer of `size * sizeof(T)` bytes), if `set_array(res, a)`
succeeds, then `get_array<T, R>` on the resulting slot and world succeeds and
returns `a` itself: the same shape and byte-identical contents. -/
theorem C4_round_trip (T : ElemType) (R : Nat) (res res' : MArgument) (a : ndarray T R)
    (w w' : World) (hwf : a.wf) (h : set_array T R res a w = (Outcome.ok (), res', w')) :
    ∃ w'', get_array T R res' w' = (Outcome.ok a, w'') := by
  have hlen : R ≤ a.dims.length := by have := hwf.1; omega
  rcases hE : Encoding.of T with _ | _
  · obtain ⟨_, hres, hw⟩ := set_array_tensor_post T R res res' a w w' hE hwf h
    have hobj : res'.object w' = some (MDataArray.tensor (MType_of T) R a.dims a.data) := by
      subst hres hw
      simp [MArgument.object]
    rw [get_array_tensor_object T R res' w' a.dims a.data hE hobj hlen, get_array_copy_wf a hwf]
    exact ⟨_, rfl⟩
  · obtain ⟨_, hres, hw⟩ := set_array_numeric_post T R res res' a w w' hE hwf h
    have hobj : res'.object w'
        = some (MDataArray.numeric (get_numeric_array_type T) R a.dims a.data) := by
      subst hres hw
      simp [MArgument.object]
    rw [get_array_numeric_object T R res' w' a.dims a.data hE hobj hlen, get_array_copy_wf a hwf]
    exact ⟨_, rfl⟩

/-- C4, witness: writing the rank-1 boolean array [true, false, true] into a
fresh slot succeeds, and reading the resulting slot returns the same array. -/
theorem C4_round_trip_witness :
    set_array ElemType.boolean 1 MArgument.unset { dims := [3], data := [1, 0, 1] }
        scenario.empty_world
      = (Outcome.ok (), MArgument.tensor 0,
          { heap := [MDataArray.numeric MNumericArray_Type_Bit8 1 [3] [1, 0, 1]],
            new_error := 0, trace := [Event.memcpy 3] })
    ∧ ∃ w'', get_array ElemType.boolean 1 (MArgument.tensor 0)
          { heap := [MDataArray.numeric MNumericArray_Type_Bit8 1 [3] [1, 0, 1]],
            new_error := 0, trace := [Event.memcpy 3] }
        = (Outcome.ok { dims := [3], data := [1, 0, 1] }, w'') :=
  ⟨by decide,
    C4_round_trip ElemType.boolean 1 MArgument.unset (MArgument.tensor 0)
      { dims := [3], data := [1, 0, 1] } scenario.empty_world _ (by decide) (by decide)⟩

/-- C8: write on the legacy tensor path. For `T` among `int64_t`, `double` and
`complex<double>` and every array `a` of rank `R` (with its invariant), a
successful `set_array(res, a)` leaves the slot holding the handle of a new
legacy tensor whose element kind is Integer, Real or Complex respectively,
whose rank is `R`, whose extents are the shape of `a` and whose buffer is the
buffer of `a`, byte for byte in the same order; the objects the host already
had are untouched. -/
theorem C8_write_legacy_tensor (T : ElemType) (R : Nat) (res res' : MArgument)
    (a : ndarray T R) (w w' : World)
    (hT : T = ElemType.int64_t ∨ T = ElemType.double ∨ T = ElemType.complex_double)
    (hwf : a.wf) (h : set_array T R res a w = (Outcome.ok (), res', w')) :
    ∃ handle kind,
      res' = MArgument.tensor handle
      ∧ w'.heap[handle]? = some (MDataArray.tensor kind R a.dims a.data)
      ∧ (T = ElemType.int64_t → kind = MType_Integer)
      ∧ (T = ElemType.double → kind = MType_Real)
      ∧ (T = ElemType.complex_double → kind = MType_Complex)
      ∧ w'.heap = w.heap ++ [MDataArray.tensor kind R a.dims a.data] := by
  have hE : Encoding.of T = Encoding.LegacyTensor := by
    rcases hT with rfl | rfl | rfl <;> rfl
  obtain ⟨_, hres, hw⟩ := set_array_tensor_post T R res res' a w w' hE hwf h
  subst hres hw
  refine ⟨w.heap.length, MType_of T, rfl, by simp, ?_, ?_, ?_, rfl⟩
  · rintro rfl; rfl
  · rintro rfl; rfl
  · rintro rfl; rfl

/-- C8, witness (scenario A): the double array of shape [2, 3] with values 1.0
to 6.0 yields a Real tensor of rank 2, extents [2, 3], whose buffer is the six
doubles in row-major order. -/
theorem C8_write_legacy_tensor_witness :
    set_array ElemType.double 2 MArgument.unset scenario.A scenario.empty_world
      = (Outcome.ok (), MArgument.tensor 0,
          { heap := [MDataArray.tensor MType_Real 2 [2, 3] scenario.doubles_1_to_6],
            new_error := 0, trace := [Event.memcpy 48] })
    ∧ ∃ handle kind,
      MArgument.tensor 0 = MArgument.tensor handle
      ∧ [MDataArray.tensor MType_Real 2 [2, 3] scenario.doubles_1_to_6][handle]?
          = some (MDataArray.tensor kind 2 [2, 3] scenario.doubles_1_to_6)
      ∧ kind = MType_Real :=
  have h : set_array ElemType.double 2 MArgument.unset scenario.A scenario.empty_world
      = (Outcome.ok (), MArgument.tensor 0,
          { heap := [MDataArray.tensor MType_Real 2 [2, 3] scenario.doubles_1_to_6],
            new_error := 0, trace := [Event.memcpy 48] }) := by decide
  ⟨h, by
    obtain ⟨handle, kind, h1, h2, _, h4, _, _⟩ := C8_write_legacy_tensor ElemType.double 2
      MArgument.unset _ scenario.A scenario.empty_world _ (Or.inr (Or.inl rfl)) (by decide) h
    exact ⟨handle, kind, h1, h2, h4 rfl⟩⟩

/-- C9: write on the numeric array path. For every `T` that is not `int64_t`,
`double` or `complex<double>` and every array `a` of rank `R` (with its
invariant), a successful `set_array(res, a)` leaves the slot holding the handle
of a new numeric array, not of a tensor: the numeric array accessors read from
the slot an object whose type tag is `get_numeric_array_type<T>()`, whose rank
is `R`, whose extents are the shape of `a` and whose buffer is the buffer of
`a`, `sizeof(T)` bytes per element; the legacy tensor accessors are not defined
on it; the objects the host already had are untouched. -/
theorem C9_write_numeric_array (T : ElemType) (R : Nat) (res res' : MArgument)
    (a : ndarray T R) (w w' : World)
    (hT : ¬ (T = ElemType.int64_t ∨ T = ElemType.double ∨ T = ElemType.complex_double))
    (hwf : a.wf) (h : set_array T R res a w = (Outcome.ok (), res', w')) :
    ∃ handle,
      MArgument_getMNumericArray res' = some handle
      ∧ MNumericArray_get w' handle = some (get_numeric_array_type T, R, a.dims, a.data)
      ∧ MTensor_get w' handle = none
      ∧ res'.object w' = some (MDataArray.numeric (get_numeric_array_type T) R a.dims a.data)
      ∧ a.data.length = a.size * sizeof T
      ∧ w'.heap = w.heap ++ [MDataArray.numeric (get_numeric_array_type T) R a.dims a.data] := by
  have hE : Encoding.of T = Encoding.NumericArray := by
    cases T <;> first | rfl | (exact absurd (by decide) hT)
  obtain ⟨_, hres, hw⟩ := set_array_numeric_post T R res res' a w w' hE hwf h
  subst hres hw
  exact ⟨w.heap.length, rfl, by simp [MNumericArray_get], by simp [MTensor_get],
    by simp [MArgument.object], hwf.2, rfl⟩

/-- C9, witness (scenario B): the `uint16_t` array of shape [4] with values 1, 2,
3, 4 yields a numeric array of tag UBit16, rank 1, extent [4] whose buffer is
the four values at 2-byte width, and the slot holds its handle. -/
theorem C9_write_numeric_array_witness :
    set_array ElemType.uint16_t 1 MArgument.unset scenario.B scenario.empty_world
      = (Outcome.ok (), MArgument.tensor 0,
          { heap := [MDataArray.numeric MNumericArray_Type_UBit16 1 [4] scenario.uint16_1_to_4],
            new_error := 0, trace := [Event.memcpy 8] })
    ∧ ∃ handle, MArgument_getMNumericArray (MArgument.tensor 0) = some handle
        ∧ MNumericArray_get
            { heap := [MDataArray.numeric MNumericArray_Type_UBit16 1 [4]
                scenario.uint16_1_to_4],
              new_error := 0, trace := [Event.memcpy 8] } handle
          = some (MNumericArray_Type_UBit16, 1, [4], scenario.uint16_1_to_4) :=
  have h : set_array ElemType.uint16_t 1 MArgument.unset scenario.B scenario.empty_world
      = (Outcome.ok (), MArgument.tensor 0,
          { heap := [MDataArray.numeric MNumericArray_Type_UBit16 1 [4] scenario.uint16_1_to_4],
            new_error := 0, trace := [Event.memcpy 8] }) := by decide
  ⟨h, by
    obtain ⟨handle, h1, h2, _⟩ := C9_write_numeric_array ElemType.uint16_t 1
      MArgument.unset _ scenario.B scenario.empty_world _ (by decide) (by decide) h
    exact ⟨handle, h1, h2⟩⟩

/-- C10 (as stated, refuted): scenario C. The slot holds a numeric array handle
declaring the complex-64 type, rank 1, extent [3]; `get_array<complex<double>,
1>` takes the legacy tensor branch and applies the legacy tensor accessors to
it, which the host interface does not define on a numeric array: the call does
not succeed. -/
theorem C10_counterexample :
    (MArgument.numeric 0).object (scenario.world_with scenario.C) = some scenario.C
    ∧ get_array.pass_by_tensor (get_numeric_array_type ElemType.complex_double) = Outcome.ok true
    ∧ get_array ElemType.complex_double 1 (MArgument.numeric 0) (scenario.world_with scenario.C)
        = (Outcome.undefined, scenario.world_with scenario.C)
    ∧ ∀ a w', get_array ElemType.complex_double 1 (MArgument.numeric 0)
        (scenario.world_with scenario.C) ≠ (Outcome.ok a, w') := by
  have h : get_array ElemType.complex_double 1 (MArgument.numeric 0)
      (scenario.world_with scenario.C) = (Outcome.undefined, scenario.world_with scenario.C) := by
    decide
  refine ⟨by decide, by decide, h, ?_⟩
  intro a w' h2
  rw [h] at h2
  simp at h2

/-- C10 (amended): `get_array<complex<double>, 1>` applied to a slot whose host
handle is a legacy tensor of complex kind, rank 1, extent [3] (with its buffer
of three 16-byte complex values) succeeds and returns a Compiled Array of shape
[3] whose contents are identical to the buffer of the handle; the host heap is
unchanged. -/
theorem C10_read_complex_tensor (arg : MArgument) (w : World) (data : List Byte)
    (hobj : arg.object w = some (MDataArray.tensor MType_Complex 1 [3] data))
    (hlen : data.length = 48) :
    get_array ElemType.complex_double 1 arg w
      = (Outcome.ok { dims := [3], data := data },
          { w with trace := w.trace ++ [Event.ndarray_ctor ElemType.complex_double [3],
                                        Event.memcpy 48] }) := by
  rw [get_array_tensor_object ElemType.complex_double 1 arg w [3] data rfl hobj (by simp)]
  have hl : ([3] : List Nat).prod * sizeof ElemType.complex_double ≤ data.length := by
    simp [sizeof, hlen]
  have e : (List.take 1 [3] : List Nat) = [3] := rfl
  rw [e, get_array_copy_ok _ _ _ _ _ hl]
  have : data.take (([3] : List Nat).prod * sizeof ElemType.complex_double) = data :=
    List.take_of_length_le (by simp [sizeof, hlen])
  rw [this]
  simp [sizeof]

/-- C10 (amended), witness: the legacy tensor counterpart of scenario C is read
back as three complex values identical to the source. -/
theorem C10_read_complex_tensor_witness :
    get_array ElemType.complex_double 1 (MArgument.tensor 0)
        (scenario.world_with scenario.C_tensor)
      = (Outcome.ok { dims := [3], data := scenario.complex_3 },
          { scenario.world_with scenario.C_tensor with
            trace := (scenario.world_with scenario.C_tensor).trace
              ++ [Event.ndarray_ctor ElemType.complex_double [3], Event.memcpy 48] }) :=
  C10_read_complex_tensor (MArgument.tensor 0) (scenario.world_with scenario.C_tensor)
    scenario.complex_3 (by decide) (by decide)


/-! ## Failure of the host creation call -/

theorem set_array_creation_error_eq (T : ElemType) (R : Nat) (val : ndarray T R) (w : World) :
    set_array.creation_error T R val w = w.new_error := by
  unfold set_array.creation_error
  split <;> simp only [MTensor_new, MNumericArray_new] <;> split <;> simp_all

theorem set_array_of_error (T : ElemType) (R : Nat) (res : MArgument) (val : ndarray T R)
    (w : World) (h : w.new_error ≠ 0) :
    set_array T R res val w = (Outcome.throw w.new_error, res, w) := by
  rcases hE : Encoding.of T with _ | _
  · rw [set_array_of_tensor T R res val w hE]
    simp [set_array.by_tensor, MTensor_new, h]
  · rw [set_array_of_numeric T R res val w hE]
    simp [set_array.by_numeric_array, MNumericArray_new, h]

theorem set_array_not_throw (T : ElemType) (R : Nat) (res : MArgument) (val : ndarray T R)
    (w : World) (h : w.new_error = 0) (e : Int) :
    (set_array T R res val w).1 ≠ Outcome.throw e := by
  rcases hE : Encoding.of T with _ | _
  · rw [set_array_of_tensor T R res val w hE]
    simp only [set_array.by_tensor, MTensor_new, h, ne_eq, not_true_eq_false, ↓reduceIte]
    split <;> simp
  · rw [set_array_of_numeric T R res val w hE]
    simp only [set_array.by_numeric_array, MNumericArray_new, h, ne_eq, not_true_eq_false,
      ↓reduceIte]
    split <;> simp

theorem set_array_ok_of_wf (T : ElemType) (R : Nat) (res : MArgument) (a : ndarray T R)
    (w : World) (h : w.new_error = 0) (hwf : a.wf) :
    (set_array T R res a w).1 = Outcome.ok () := by
  obtain ⟨t1, t2, t3⟩ := ndarray_wf_take a hwf
  have hs : a.size = a.dims.prod := rfl
  rcases hE : Encoding.of T with _ | _
  · rw [set_array_of_tensor T R res a w hE]
    simp only [set_array.by_tensor, MTensor_new, h, ne_eq, not_true_eq_false, ↓reduceIte]
    rw [set_array_copy_new]
    simp only [MDataArray.data, utils.size_of_dims, t1, sizeof_eq_tensor_width T hE, hs,
      memcpy_whole a.data _ t3, Option.map_some']
  · rw [set_array_of_numeric T R res a w hE]
    simp only [set_array.by_numeric_array, MNumericArray_new, h, ne_eq, not_true_eq_false,
      ↓reduceIte]
    rw [set_array_copy_new]
    simp only [MDataArray.data, utils.size_of_dims, t1, sizeof_eq_numeric_width T, hs,
      memcpy_whole a.data _ t3, Option.map_some']

/-- C11: write-path atomicity. For every supported `T` and `R`: if the creation
call `set_array` makes (`MTensor_new` or `MNumericArray_new`) returns a
non-zero error code `e`, then `set_array` throws exactly `e` and leaves the
result slot and the world unchanged, so that no bulk copy is performed;
conversely, if the creation call returns 0, `set_array` throws nothing, and it
succeeds for every array that satisfies the Compiled Array invariant. -/
theorem C11_write_atomicity (T : ElemType) (R : Nat) (res : MArgument) (val : ndarray T R)
    (w : World) :
    (∀ e : Int, e ≠ 0 → set_array.creation_error T R val w = e →
        set_array T R res val w = (Outcome.throw e, res, w)
        ∧ (∀ n, Event.memcpy n ∈ (set_array T R res val w).2.2.trace →
            Event.memcpy n ∈ w.trace))
    ∧ (set_array.creation_error T R val w = 0 →
        (∀ e : Int, (set_array T R res val w).1 ≠ Outcome.throw e)
        ∧ (val.wf → (set_array T R res val w).1 = Outcome.ok ())) := by
  rw [set_array_creation_error_eq]
  refine ⟨fun e he h => ?_, fun h => ⟨set_array_not_throw T R res val w h, ?_⟩⟩
  · have h2 : w.new_error ≠ 0 := by rw [h]; exact he
    have h3 := set_array_of_error T R res val w h2
    rw [h] at h3
    rw [h3]
    exact ⟨rfl, fun n hn => hn⟩
  · exact set_array_ok_of_wf T R res val w h

/-- C11, witness: with a host whose creation call fails with code 5, writing
scenario A throws 5 and leaves slot and world as they were; with a host whose
creation call succeeds, the same write succeeds. -/
theorem C11_write_atomicity_witness :
    set_array ElemType.double 2 (MArgument.integer 7) scenario.A scenario.failing_world
      = (Outcome.throw 5, MArgument.integer 7, scenario.failing_world)
    ∧ (set_array ElemType.double 2 (MArgument.integer 7) scenario.A scenario.empty_world).1
      = Outcome.ok () :=
  ⟨((C11_write_atomicity ElemType.double 2 (MArgument.integer 7) scenario.A
      scenario.failing_world).1 5 (by decide) (by decide)).1,
    ((C11_write_atomicity ElemType.double 2 (MArgument.integer 7) scenario.A
      scenario.empty_world).2 (by decide)).2 (by decide)⟩

/-! ## The empty value and text -/

/-- C12: the empty value. `set(res, v)` with `v` of the empty type `void_type`
succeeds and leaves the slot and the world exactly as they were: no host tensor
or numeric array is created (the heap is the same) and no bulk copy is
performed (the trace is the same). -/
theorem C12_set_void_type (res : MArgument) (w : World) :
    set res CValue.void_type w = (Outcome.ok (), res, w)
    ∧ (set res CValue.void_type w).2.1 = res
    ∧ (set res CValue.void_type w).2.2.heap = w.heap
    ∧ (set res CValue.void_type w).2.2.trace = w.trace :=
  ⟨rfl, rfl, rfl, rfl⟩

/-- C13: text results bypass the binary path. For every string and every array
of strings, `set(res, v)` succeeds, leaves the slot unchanged and creates no
host tensor or numeric array; what it adds to the trace is exactly the sequence
of link calls `put("EvaluatePacket", 1)`, `put("CompoundExpression", 2)`,
`put("Set", 2)`, `put("linkreturn")`, the payload (`put_array(dims, data)` for
an array, `put(v)` for a single string), `put("Null")`, `eof()`. -/
theorem C13_set_text (res : MArgument) (w : World) :
    (∀ s : String,
      set res (CValue.string s) w
        = (Outcome.ok (), res,
            { heap := w.heap, new_error := w.new_error,
              trace := w.trace ++ [Event.link_put_function "EvaluatePacket" 1,
                Event.link_put_function "CompoundExpression" 2,
                Event.link_put_function "Set" 2,
                Event.link_put_symbol "linkreturn",
                Event.link_put_string s,
                Event.link_put_symbol "Null",
                Event.link_eof] }))
    ∧ (∀ (R : Nat) (dims : List Nat) (data : List String),
      set res (CValue.string_array R dims data) w
        = (Outcome.ok (), res,
            { heap := w.heap, new_error := w.new_error,
              trace := w.trace ++ [Event.link_put_function "EvaluatePacket" 1,
                Event.link_put_function "CompoundExpression" 2,
                Event.link_put_function "Set" 2,
                Event.link_put_symbol "linkreturn",
                Event.link_put_array dims data,
                Event.link_put_symbol "Null",
                Event.link_eof] })) := by
  constructor
  · intro s
    simp [set, set_expr]
  · intro R dims data
    simp [set, set_expr]

/-! ## Error precedence on read -/

/-- C14: error precedence on read. When the host handle has both a rank
different from `R` and an element kind or tag different from the one expected
for `T`, `get_array<T, R>` fails with `LIBRARY_RANK_ERROR` on the legacy tensor
path (the rank is checked before the kind) and with `LIBRARY_TYPE_ERROR` on the
numeric array path (the tag is checked before the rank); in both cases the
world is unchanged. -/
theorem C14_error_precedence (T : ElemType) (R : Nat) (arg : MArgument) (w : World) :
    (∀ (kind : Int) (rank : Nat) (dims : List Nat) (data : List Byte),
      get_array.pass_by_tensor (get_numeric_array_type T) = Outcome.ok true →
      arg.object w = some (MDataArray.tensor kind rank dims data) →
      rank ≠ R → kind ≠ MType_of T →
      get_array T R arg w = (Outcome.throw LIBRARY_RANK_ERROR, w))
    ∧ (∀ (type : numericarray_data_t) (rank : Nat) (dims : List Nat) (data : List Byte),
      get_array.pass_by_tensor (get_numeric_array_type T) = Outcome.ok false →
      arg.object w = some (MDataArray.numeric type rank dims data) →
      rank ≠ R → type ≠ get_numeric_array_type T →
      get_array T R arg w = (Outcome.throw LIBRARY_TYPE_ERROR, w)) := by
  constructor
  · intro kind rank dims data hE hobj hr _
    obtain ⟨tensor, h1, h2⟩ := MTensor_get_of_object arg w _ _ _ _ hobj
    simp [get_array, hE, get_array.by_tensor, h1, h2, hr]
  · intro type rank dims data hE hobj _ ht
    obtain ⟨narray, h1, h2⟩ := MNumericArray_get_of_object arg w _ _ _ _ hobj
    simp [get_array, hE, get_array.by_numeric_array, h1, h2, ht]

/-- C14, witness: a rank-2 tensor of integers read as `get_array<double, 3>`
fails with the rank error; a rank-2 numeric array of unsigned bytes read as
`get_array<float, 3>` fails with the type error. -/
theorem C14_error_precedence_witness :
    get_array ElemType.double 3 (MArgument.tensor 0)
        (scenario.world_with scenario.integer_tensor_rank2)
      = (Outcome.throw LIBRARY_RANK_ERROR, scenario.world_with scenario.integer_tensor_rank2)
    ∧ get_array ElemType.float 3 (MArgument.numeric 0)
        (scenario.world_with scenario.ubit8_rank2)
      = (Outcome.throw LIBRARY_TYPE_ERROR, scenario.world_with scenario.ubit8_rank2) :=
  ⟨(C14_error_precedence ElemType.double 3 (MArgument.tensor 0)
      (scenario.world_with scenario.integer_tensor_rank2)).1 MType_Integer 2 [1, 2]
      (List.replicate 16 0) (by decide) (by decide) (by decide) (by decide),
    (C14_error_precedence ElemType.float 3 (MArgument.numeric 0)
      (scenario.world_with scenario.ubit8_rank2)).2 MNumericArray_Type_UBit8 2 [2, 2]
      [1, 2, 3, 4] (by decide) (by decide) (by decide) (by decide)⟩

/-! ## Scalar round trips -/

theorem integral_cast_mint_wrap (T : ElemType) (v : Int) (hT : is_integral_v T = true)
    (hv : in_range T v) : integral_cast T (mint_wrap v) = v := by
  cases T <;> simp [is_integral_v] at hT <;>
    simp [in_range, is_signed_v, sizeof] at hv <;>
    simp [integral_cast, is_signed_v, sizeof, mint_wrap] <;> omega

/-- C15: scalar integer and boolean round trip. For every integer type `T`
among the 8, 16, 32 and 64-bit signed and unsigned integers and every value `v`
of `T`, `set(res, v)` stores `v` converted to the 64-bit host integer, and
`get<T>` applied to the resulting slot returns `v`; likewise `get<boolean>`
applied to the slot produced by `set(res, b)` returns `b`. -/
theorem C15_scalar_round_trip (narrow : Nat → Nat) (res : MArgument) (w : World) :
    (∀ (T : ElemType) (v : Int), is_integral_v T = true → in_range T v →
      set res (CValue.integral T v) w = (Outcome.ok (), MArgument.integer (mint_wrap v), w)
      ∧ get narrow (CType.elem T) (set res (CValue.integral T v) w).2.1
          (set res (CValue.integral T v) w).2.2
        = some (Outcome.ok (CValue.integral T v), w))
    ∧ (∀ b : Bool,
      get narrow (CType.elem ElemType.boolean) (set res (CValue.boolean b) w).2.1
          (set res (CValue.boolean b) w).2.2
        = some (Outcome.ok (CValue.boolean b), w)) := by
  constructor
  · intro T v hT hv
    refine ⟨rfl, ?_⟩
    have hb : is_boolean_v T = false := by
      cases T <;> simp [is_integral_v] at hT <;> rfl
    simp [set, get, hb, hT, MArgument_setInteger, MArgument_getInteger,
      integral_cast_mint_wrap T v hT hv]
  · intro b
    cases b <;> simp [set, get, is_boolean_v, MArgument_setBoolean, MArgument_getBoolean, mbool]

/-- C15, witness: the largest `uint64_t` is stored as the host integer -1 and
read back unchanged; -128 round-trips through `int8_t`. -/
theorem C15_scalar_round_trip_witness :
    set MArgument.unset (CValue.integral ElemType.uint64_t (2 ^ 64 - 1)) scenario.empty_world
      = (Outcome.ok (), MArgument.integer (-1), scenario.empty_world)
    ∧ get id (CType.elem ElemType.uint64_t) (MArgument.integer (-1)) scenario.empty_world
      = some (Outcome.ok (CValue.integral ElemType.uint64_t (2 ^ 64 - 1)), scenario.empty_world)
    ∧ get id (CType.elem ElemType.int8_t)
        (set MArgument.unset (CValue.integral ElemType.int8_t (-128)) scenario.empty_world).2.1
        (set MArgument.unset (CValue.integral ElemType.int8_t (-128)) scenario.empty_world).2.2
      = some (Outcome.ok (CValue.integral ElemType.int8_t (-128)), scenario.empty_world) := by
  have h := (C15_scalar_round_trip id MArgument.unset scenario.empty_world).1
    ElemType.uint64_t (2 ^ 64 - 1) (by decide) (by decide)
  have h8 := (C15_scalar_round_trip id MArgument.unset scenario.empty_world).1
    ElemType.int8_t (-128) (by decide) (by decide)
  have e : mint_wrap (2 ^ 64 - 1) = -1 := by decide
  rw [e] at h
  refine ⟨h.1, ?_, h8.2⟩
  have h2 := h.2
  rw [h.1] at h2
  exact h2

/-! ## The tag collision of `boolean` and `int8_t` -/

/-- C16: `get_numeric_array_type` is injective on the supported element types
except for one collision. Two distinct supported types get the same tag exactly
when they are `boolean` and `int8_t`, which both map to the signed 8-bit tag;
consequently `get_array<boolean, R>` reads a host numeric array declared as
signed 8-bit (of rank `R`, with a buffer of one byte per element), and
`set_array` does for a boolean array exactly what it does for the `int8_t` array
of the same shape and bytes: the numeric array it creates carries the same
tag. -/
theorem C16_tag_collision :
    (∀ T1 T2 : ElemType, T1 ≠ T2 →
      (get_numeric_array_type T1 = get_numeric_array_type T2
        ↔ (T1 = ElemType.boolean ∧ T2 = ElemType.int8_t)
          ∨ (T1 = ElemType.int8_t ∧ T2 = ElemType.boolean)))
    ∧ get_numeric_array_type ElemType.boolean = MNumericArray_Type_Bit8
    ∧ get_numeric_array_type ElemType.int8_t = MNumericArray_Type_Bit8
    ∧ (∀ (R : Nat) (arg : MArgument) (w : World) (dims : List Nat) (data : List Byte),
        arg.object w = some (MDataArray.numeric MNumericArray_Type_Bit8 R dims data) →
        dims.length = R → data.length = dims.prod →
        get_array ElemType.boolean R arg w
          = (Outcome.ok { dims := dims, data := data },
              { w with trace := w.trace ++ [Event.ndarray_ctor ElemType.boolean dims,
                                            Event.memcpy dims.prod] }))
    ∧ (∀ (R : Nat) (res : MArgument) (dims : List Nat) (data : List Byte) (w : World),
        set_array ElemType.boolean R res { dims := dims, data := data } w
          = set_array ElemType.int8_t R res { dims := dims, data := data } w)
    ∧ (∀ (R : Nat) (res res' : MArgument) (a : ndarray ElemType.boolean R) (w w' : World),
        a.wf → set_array ElemType.boolean R res a w = (Outcome.ok (), res', w') →
        ∃ handle, MArgument_getMNumericArray res' = some handle
          ∧ w'.heap[handle]?
            = some (MDataArray.numeric (get_numeric_array_type ElemType.int8_t) R
                a.dims a.data)) := by
  refine ⟨?_, rfl, rfl, ?_, ?_, ?_⟩
  · intro T1 T2 hne
    cases T1 <;> cases T2 <;> first
      | exact absurd rfl hne
      | decide
  · intro R arg w dims data hobj hlen hdata
    have hobj2 : arg.object w
        = some (MDataArray.numeric (get_numeric_array_type ElemType.boolean) R dims data) := hobj
    rw [get_array_numeric_object ElemType.boolean R arg w dims data rfl hobj2 (by omega)]
    have hwf : ({ dims := dims, data := data } : ndarray ElemType.boolean R).wf :=
      ⟨hlen, by simp [ndarray.size, utils.size_of_dims, sizeof, hdata]⟩
    have h := get_array_copy_wf ({ dims := dims, data := data } : ndarray ElemType.boolean R)
      hwf w
    simpa [sizeof] using h
  · intro R res dims data w
    rfl
  · intro R res res' a w w' hwf h
    obtain ⟨_, hres, hw⟩ := set_array_numeric_post ElemType.boolean R res res' a w w' rfl hwf h
    subst hres hw
    exact ⟨w.heap.length, rfl, by simp [get_numeric_array_type]⟩

/-- C16, witness: a rank-1 numeric array declared as signed 8-bit is read by
`get_array<boolean, 1>`, and the written boolean array [true, false, true]
leaves a numeric array carrying the tag of `int8_t`. -/
theorem C16_tag_collision_witness :
    get_array ElemType.boolean 1 (MArgument.numeric 0) (scenario.world_with scenario.bit8_rank1)
      = (Outcome.ok { dims := [3], data := [1, 0, 1] },
          { scenario.world_with scenario.bit8_rank1 with
            trace := (scenario.world_with scenario.bit8_rank1).trace
              ++ [Event.ndarray_ctor ElemType.boolean [3], Event.memcpy ([3] : List Nat).prod] })
    ∧ (get_numeric_array_type ElemType.uint8_t = get_numeric_array_type ElemType.int8_t
        ↔ (ElemType.uint8_t = ElemType.boolean ∧ ElemType.int8_t = ElemType.int8_t)
          ∨ (ElemType.uint8_t = ElemType.int8_t ∧ ElemType.int8_t = ElemType.boolean))
    ∧ ∃ handle, MArgument_getMNumericArray (MArgument.tensor 0) = some handle
        ∧ [MDataArray.numeric MNumericArray_Type_Bit8 1 [3] [1, 0, 1]][handle]?
          = some (MDataArray.numeric (get_numeric_array_type ElemType.int8_t) 1 [3] [1, 0, 1]) :=
  ⟨C16_tag_collision.2.2.2.1 1 (MArgument.numeric 0) (scenario.world_with scenario.bit8_rank1)
      [3] [1, 0, 1] (by decide) (by decide) (by decide),
    C16_tag_collision.1 ElemType.uint8_t ElemType.int8_t (by decide),
    C16_tag_collision.2.2.2.2.2 1 MArgument.unset (MArgument.tensor 0)
      { dims := [3], data := [1, 0, 1] } scenario.empty_world
      { heap := [MDataArray.numeric MNumericArray_Type_Bit8 1 [3] [1, 0, 1]],
        new_error := 0, trace := [Event.memcpy 3] } (by decide) (by decide)⟩

end librarylink

end wl
